import Mathlib

/-! # Customer repository (`app/models/customer.go`)

A verification development for the data-access layer of the `Customer` entity.

The Go code composes ORM statements against a relational store.  The embedding
keeps the two layers apart:

* the *store* is a record of tables, each a list of rows;
* a *statement handle* (`DB ρ`) carries the rows of a `FROM` clause that satisfy
  the `WHERE` fragments added so far, together with the first reference that
  could not be resolved against the `FROM` clause;
* every repository method is a function of the store that mirrors the Go body
  statement by statement; `WHERE` fragments are kept as syntax (`Cond`) with the
  column references spelled as in the source text.

Conventions.

* The store never fails on its own (no driver or network errors), so the only
  errors are the ones the statements themselves produce: no such row, a
  reference that its `FROM` clause does not resolve, and a written value that
  the declared type of its column does not hold.
* Text comparison is exact (binary collation).  Rows are returned in table
  order, which fixes one consistent ordering of every result.
* A statement on a bare table (`DB.Table(...)`) carries no soft-delete clause;
  a statement on the relation model (the preload of `Staffs`) carries
  `deleted_at IS NULL`.  The record `Customer` has no soft-delete marker.
* A preload skips an owner whose key is the zero value.
* The engine is MySQL in its strict mode.  The conflict clause of a write is
  rendered as `ON DUPLICATE KEY UPDATE`, which fires on the primary key `id`
  and on the unique index on `ext_id`, whatever columns the clause names: the
  first of these keys that a stored row shares with the proposed row selects
  the row that takes the assignments, and no row is inserted.  A value that the
  declared type of its column does not hold (`tinyint`, `varchar(n)`,
  `char(n)`) fails the statement.  A failed write leaves the store as it was:
  a `Create` is one statement, and the slices of `CreateInBatches` share one
  transaction.  Column types are the ones `customer.go` declares.
-/

namespace Models

/-! ## SQL values and three-valued conditions -/

/-- A value held by a column. -/
inductive Val where
  | null
  | str (s : String)
  | int (i : Int)
  deriving DecidableEq, Repr, Inhabited

/-- Errors surfaced by the repository. -/
inductive DBError where
  /-- The row required by `First` does not exist (`gorm.ErrRecordNotFound`). -/
  | recordNotFound
  /-- A table alias or column named by a statement is not in its `FROM` clause. -/
  | unknownColumn (ref : String)
  /-- An error annotated by `errors.Wrap`. -/
  | wrap (cause : DBError) (message : String)
  /-- A statement writes into column `col` a value that the declared type of the
  column does not hold (MySQL: out of range value, data too long). -/
  | outOfRange (col : String)
  deriving DecidableEq, Repr, Inhabited

/-- Lexicographic order on texts, the order of fixed-width timestamps. -/
def leChars : List Char → List Char → Bool
  | [], _ => true
  | _ :: _, [] => false
  | a :: as, b :: bs => if a.toNat < b.toNat then true else if a = b then leChars as bs else false

/-- SQL comparison `a <= b`; unknown when an operand is null or the kinds differ. -/
def Val.le : Val → Val → Option Bool
  | .str a, .str b => some (leChars a.data b.data)
  | .int a, .int b => some (decide (a ≤ b))
  | _, _ => none

/-- Does some suffix of the text satisfy `f`? (the text matched after a `%`). -/
def anySuffix (f : List Char → Bool) : List Char → Bool
  | [] => f []
  | c :: s => f (c :: s) || anySuffix f s

/-- The text starts with the character `c` and goes on as `rest` asks. -/
def literal (c : Char) (rest : List Char → Bool) : List Char → Bool
  | [] => false
  | x :: s => decide (x = c) && rest s

/-- The text starts with any one character and goes on as `rest` asks. -/
def anyOne (rest : List Char → Bool) : List Char → Bool
  | [] => false
  | _ :: s => rest s

/-- SQL `LIKE` on characters: `%` matches any run of characters, `_` one
character, a backslash makes the next pattern character literal (`esc` tells
that the character before was such a backslash). -/
def likeFrom : Bool → List Char → List Char → Bool
  | esc, [], s => if esc then decide (s = ['\\']) else s.isEmpty
  | esc, p :: ps, s =>
    if esc then literal p (likeFrom false ps) s
    else if p = '%' then anySuffix (likeFrom false ps) s
    else if p = '_' then anyOne (likeFrom false ps) s
    else if p = '\\' then likeFrom true ps s
    else literal p (likeFrom false ps) s

/-- The operator `text LIKE pattern`. -/
def sqlLike (text pattern : String) : Bool := likeFrom false pattern.data text.data

/-- A `WHERE` fragment with its bound arguments; `col` is the column reference as
it is spelled in the source. -/
inductive Cond where
  /-- The fragment `col like ?`. -/
  | like (col : String) (pattern : String)
  /-- The fragment `col = ?`. -/
  | eq (col : String) (v : Val)
  /-- The fragment `col in (?)`. -/
  | inList (col : String) (vs : List Val)
  /-- The fragment `col between ? and ?`. -/
  | between (col : String) (lo hi : Val)
  /-- The fragment `col is null`. -/
  | isNull (col : String)
  /-- The fragment `col is not null`. -/
  | isNotNull (col : String)
  /-- The fragment `a and b`. -/
  | and (a b : Cond)
  /-- The fragment `a OR b`. -/
  | or (a b : Cond)
  deriving Repr, Inhabited

/-- Three-valued conjunction. -/
def and3 : Option Bool → Option Bool → Option Bool
  | some false, _ => some false
  | _, some false => some false
  | some true, some true => some true
  | _, _ => none

/-- Three-valued disjunction. -/
def or3 : Option Bool → Option Bool → Option Bool
  | some true, _ => some true
  | _, some true => some true
  | some false, some false => some false
  | _, _ => none

/-- Resolve the references of a fragment against a `FROM` clause (`resolve`) and
give its truth value on a row: `some true`, `some false` or unknown. -/
def Cond.compile {ρ : Type} (resolve : String → Option (ρ → Val)) :
    Cond → Except DBError (ρ → Option Bool)
  | .like col pattern =>
    match resolve col with
    | none => .error (.unknownColumn col)
    | some f => .ok fun r =>
      match f r with
      | .str s => some (sqlLike s pattern)
      | _ => none
  | .eq col v =>
    match resolve col with
    | none => .error (.unknownColumn col)
    | some f => .ok fun r => if f r = .null ∨ v = .null then none else some (decide (f r = v))
  | .inList col vs =>
    match resolve col with
    | none => .error (.unknownColumn col)
    | some f => .ok fun r => if f r = .null then none else some (decide (f r ∈ vs))
  | .between col lo hi =>
    match resolve col with
    | none => .error (.unknownColumn col)
    | some f => .ok fun r => and3 (Val.le lo (f r)) (Val.le (f r) hi)
  | .isNull col =>
    match resolve col with
    | none => .error (.unknownColumn col)
    | some f => .ok fun r => some (decide (f r = .null))
  | .isNotNull col =>
    match resolve col with
    | none => .error (.unknownColumn col)
    | some f => .ok fun r => some (decide (f r ≠ .null))
  | .and a b =>
    match a.compile resolve, b.compile resolve with
    | .ok p, .ok q => .ok fun r => and3 (p r) (q r)
    | .error e, _ => .error e
    | _, .error e => .error e
  | .or a b =>
    match a.compile resolve, b.compile resolve with
    | .ok p, .ok q => .ok fun r => or3 (p r) (q r)
    | .error e, _ => .error e
    | _, .error e => .error e

/-! ## Records

`ExtCorpModel`, `Timestamp`, `CustomerStaff`, the request and the pager are
declared outside `customer.go`; they carry the fields the file's statements
name. -/

/-- Modelled from the spec: a tag association of a staff relation
(`customer_staff_tag`), referenced by the joins through `customer_staff_id` and
`ext_tag_id`. -/
structure CustomerStaffTag where
  ID : String := ""
  CustomerStaffID : String := ""
  ExtTagID : String := ""
  deriving DecidableEq, Repr, Inhabited

/-- Modelled from the spec: the join entity linking a customer to a staff member
within a corp, "carrying remark/description, add-channel, soft-delete timestamp
(marks churned status), and its own tag associations". `DeletedAt` is the
soft-delete marker (`deleted_at`); `CustomerStaffTags` is a loaded association,
not a column. -/
structure CustomerStaff where
  ID : String := ""
  ExtCorpID : String := ""
  ExtStaffID : String := ""
  ExtCustomerID : String := ""
  Remark : String := ""
  Description : String := ""
  Createtime : String := ""
  AddWay : Int := 0
  CustomerStaffTags : List CustomerStaffTag := []
  DeletedAt : Option String := none
  deriving DecidableEq, Repr, Inhabited

/-- The record `Customer`.  `ID` and `ExtCorpID` come from the embedded
`ExtCorpModel`, `CreatedAt` and `UpdatedAt` from the embedded `Timestamp`
(modelled from the spec: "creation/update timestamps"; `0` is the zero time).
`ExternalProfile` is kept as its JSON text; `Typ` is the field `Type`.
`Staffs` is the loaded association (`foreignKey:ExtCustomerID;references:ExtID`),
not a column. -/
structure Customer where
  ID : String := ""
  ExtCorpID : String := ""
  ExtID : String := ""
  Name : String := ""
  Position : String := ""
  CorpName : String := ""
  Avatar : String := ""
  Typ : Int := 0
  Gender : Int := 0
  Unionid : String := ""
  ExternalProfile : String := ""
  Staffs : List CustomerStaff := []
  CreatedAt : Nat := 0
  UpdatedAt : Nat := 0
  deriving DecidableEq, Repr, Inhabited

/-- Modelled from the spec: a row of table `staff`, joined through `ext_id` and
read for its `name`. -/
structure Staff where
  ExtID : String := ""
  Name : String := ""
  deriving DecidableEq, Repr, Inhabited

/-- Modelled from the spec: a row of the auxiliary table `customer_info`, joined
through `ext_customer_id` and read for the demographic columns. -/
structure CustomerInfo where
  ExtCustomerID : String := ""
  Age : Int := 0
  Birthday : String := ""
  PhoneNumber : String := ""
  deriving DecidableEq, Repr, Inhabited

/-- The record `CustomerExportItem`, the projection filled by the export
queries. -/
structure CustomerExportItem where
  ExtID : String := ""
  CustomerName : String := ""
  CustomerCorpName : String := ""
  StaffName : String := ""
  Remark : String := ""
  Description : String := ""
  Status : String := ""
  Createtime : String := ""
  AddWay : Int := 0
  Age : Int := 0
  Gender : Int := 0
  Birthday : String := ""
  PhoneNumber : String := ""
  Staffs : List CustomerStaff := []
  deriving DecidableEq, Repr, Inhabited

/-- Modelled from the spec: the filter request (`requests.QueryCustomerReq`),
"name (prefix match), gender, type, staff-ID set, tag-ID set, date range,
channel/add-way code, churn-status flag"; the fields are the ones `customer.go`
reads, `Typ` standing for `Type`. -/
structure QueryCustomerReq where
  Name : String := ""
  Gender : Int := 0
  Typ : Int := 0
  ExtStaffIDs : List String := []
  StartTime : String := ""
  EndTime : String := ""
  ExtTagIDs : List String := []
  ChannelType : Int := 0
  OutFlowStatus : Int := 0
  deriving DecidableEq, Repr, Inhabited

/-- Modelled from the spec: the paging helper (`app.Pager`), "providing
offset/limit computation and default-value substitution". -/
structure Pager where
  Page : Int := 0
  PageSize : Int := 0
  deriving DecidableEq, Repr, Inhabited

/-- Modelled from the spec: default-value substitution of the pager; a page or
page size that is not positive is replaced by page `1` and by the configured
default page size. -/
def Pager.SetDefault (defaultPageSize : Int) (pager : Pager) : Pager :=
  { Page := if pager.Page ≤ 0 then 1 else pager.Page
    PageSize := if pager.PageSize ≤ 0 then defaultPageSize else pager.PageSize }

/-- Modelled from the spec: the offset computation of the pager. -/
def Pager.GetOffset (pager : Pager) : Int := (pager.Page - 1) * pager.PageSize

/-- Modelled from the spec: the limit computation of the pager. -/
def Pager.GetLimit (pager : Pager) : Int := pager.PageSize

/-- Modelled from the spec: the free-standing offset computation
`app.GetPageOffset`. -/
def GetPageOffset (page pageSize : Int) : Int :=
  if page > 0 then (page - 1) * pageSize else 0

/-- The relational store behind the global handle `DB`: one list of rows per
table, in storage order.  Rows of `customer` and `customer_staff` hold columns
only: their association fields are empty. -/
structure Store where
  customer : List Customer := []
  customer_staff : List CustomerStaff := []
  customer_staff_tag : List CustomerStaffTag := []
  staff : List Staff := []
  customer_info : List CustomerInfo := []
  deriving DecidableEq, Repr, Inhabited

/-- The unique index `idx_ext_customer_id` on `customer.ext_id`. -/
def Store.UniqueExtID (store : Store) : Prop := (store.customer.map (·.ExtID)).Nodup

/-- The primary key `customer.id`. -/
def Store.UniqueID (store : Store) : Prop := (store.customer.map (·.ID)).Nodup

instance (store : Store) : Decidable store.UniqueExtID := by
  unfold Store.UniqueExtID; infer_instance

instance (store : Store) : Decidable store.UniqueID := by
  unfold Store.UniqueID; infer_instance

/-! ## Columns -/

/-- A nullable timestamp as a value. -/
def Val.ofTime : Option String → Val
  | none => .null
  | some t => .str t

/-- The value of a column of a table on the right side of a left join: null when
the row is null-extended. -/
def orNull {τ : Type} (row : Option τ) (f : τ → Val) : Val :=
  match row with
  | none => .null
  | some t => f t

/-- The columns of table `customer`. -/
def Customer.column : String → Option (Customer → Val)
  | "id" => some fun c => .str c.ID
  | "ext_corp_id" => some fun c => .str c.ExtCorpID
  | "ext_id" => some fun c => .str c.ExtID
  | "name" => some fun c => .str c.Name
  | "position" => some fun c => .str c.Position
  | "corp_name" => some fun c => .str c.CorpName
  | "avatar" => some fun c => .str c.Avatar
  | "type" => some fun c => .int c.Typ
  | "gender" => some fun c => .int c.Gender
  | "unionid" => some fun c => .str c.Unionid
  | "external_profile" => some fun c => .str c.ExternalProfile
  | "created_at" => some fun c => .int c.CreatedAt
  | "updated_at" => some fun c => .int c.UpdatedAt
  | _ => none

/-- The columns of table `customer_staff`. -/
def CustomerStaff.column : String → Option (CustomerStaff → Val)
  | "id" => some fun s => .str s.ID
  | "ext_corp_id" => some fun s => .str s.ExtCorpID
  | "ext_staff_id" => some fun s => .str s.ExtStaffID
  | "ext_customer_id" => some fun s => .str s.ExtCustomerID
  | "remark" => some fun s => .str s.Remark
  | "description" => some fun s => .str s.Description
  | "createtime" => some fun s => .str s.Createtime
  | "add_way" => some fun s => .int s.AddWay
  | "deleted_at" => some fun s => Val.ofTime s.DeletedAt
  | _ => none

/-- The columns of table `customer_staff_tag`. -/
def CustomerStaffTag.column : String → Option (CustomerStaffTag → Val)
  | "id" => some fun t => .str t.ID
  | "customer_staff_id" => some fun t => .str t.CustomerStaffID
  | "ext_tag_id" => some fun t => .str t.ExtTagID
  | _ => none

/-- The columns of table `staff`. -/
def Staff.column : String → Option (Staff → Val)
  | "ext_id" => some fun s => .str s.ExtID
  | "name" => some fun s => .str s.Name
  | _ => none

/-- The columns of table `customer_info`. -/
def CustomerInfo.column : String → Option (CustomerInfo → Val)
  | "ext_customer_id" => some fun i => .str i.ExtCustomerID
  | "age" => some fun i => .int i.Age
  | "birthday" => some fun i => .str i.Birthday
  | "phone_number" => some fun i => .str i.PhoneNumber
  | _ => none

/-- The column names of table `customer`, in declaration order. -/
def Customer.columns : List String :=
  ["id", "ext_corp_id", "ext_id", "name", "position", "corp_name", "avatar", "type", "gender",
    "unionid", "external_profile", "created_at", "updated_at"]

/-- The column names of table `customer_staff`. -/
def CustomerStaff.columns : List String :=
  ["id", "ext_corp_id", "ext_staff_id", "ext_customer_id", "remark", "description",
    "createtime", "add_way", "deleted_at"]

/-- The column names of table `customer_staff_tag`. -/
def CustomerStaffTag.columns : List String := ["id", "customer_staff_id", "ext_tag_id"]

/-- The column names of table `staff`. -/
def Staff.columns : List String := ["ext_id", "name"]

/-- The column names of table `customer_info`. -/
def CustomerInfo.columns : List String := ["ext_customer_id", "age", "birthday", "phone_number"]

/-! ## Statement handles -/

/-- A table of a `FROM` clause as seen from the joined row type `ρ`: the name it
goes by (its alias when it has one), its column names and the reading of each
column on a joined row. -/
structure TableRef (ρ : Type) where
  qual : String
  columns : List String
  column : String → Option (ρ → Val)

/-- Read a table's column through the joined row; `get` gives the table's row,
`none` on the null-extended side of a left join, where every column is null. -/
def nullable {ρ τ : Type} (get : ρ → Option τ) (column : String → Option (τ → Val))
    (col : String) : Option (ρ → Val) :=
  match column col with
  | none => none
  | some f => some fun r => orNull (get r) f

/-- Strip the qualifier `qual.` from a column reference. -/
def unqualify (qual ref : String) : Option String :=
  (List.isPrefixOf? (qual.data ++ ['.']) ref.data).map String.mk

/-- A reference as one table reads it: `qual.col`, or the bare `col`. -/
def TableRef.lookup {ρ : Type} (t : TableRef ρ) (ref : String) : Option (ρ → Val) :=
  match unqualify t.qual ref with
  | some col => t.column col
  | none => t.column ref

/-- Resolve a reference against the tables of a `FROM` clause: it must name a
column of exactly one of them. -/
def resolveIn {ρ : Type} (tables : List (TableRef ρ)) (ref : String) : Option (ρ → Val) :=
  match tables.filterMap (fun t => t.lookup ref) with
  | [f] => some f
  | _ => none

/-- An item of a `SELECT` list. -/
inductive SelectItem where
  /-- The item `ref as name` (or plain `ref`, named by its column). -/
  | col (ref : String) (name : String)
  /-- The item `qual.*`. -/
  | star (qual : String)
  /-- The item `if(ref is null, a, b) as name`. -/
  | ifIsNull (ref : String) (a b : String) (name : String)
  deriving DecidableEq, Repr, Inhabited

/-- The statement handle `*gorm.DB` over a `FROM` clause with joined rows `ρ`.
`rows` are the joined rows that satisfy the `WHERE` fragments added so far;
`Error` is the first reference that failed to resolve.  A chained call changes
the handle it is called on, so the fields set by one call are seen by the
later ones. -/
structure DB (ρ : Type) where
  tables : List (TableRef ρ)
  rows : List ρ
  Error : Option DBError := none
  unscoped : Bool := false
  distinct : Bool := false
  selects : List SelectItem := []
  offset : Nat := 0
  limit : Option Nat := none
  preloads : List (String × List Cond) := []

/-- The call `db.Where(fragment, args...)`. -/
def DB.Where {ρ : Type} (db : DB ρ) (cond : Cond) : DB ρ :=
  match cond.compile (resolveIn db.tables) with
  | .error e => { db with Error := db.Error <|> some e }
  | .ok p => { db with rows := db.rows.filter fun r => p r = some true }

/-- The call `db.Unscoped()`: lifts the soft-delete clause of the statement's
model; a statement on a bare table has none. -/
def DB.Unscoped {ρ : Type} (db : DB ρ) : DB ρ := { db with unscoped := true }

/-- The call `db.Distinct(args...)`. -/
def DB.Distinct {ρ : Type} (db : DB ρ) (args : List SelectItem) : DB ρ :=
  if args = [] then { db with distinct := true }
  else { db with distinct := true, selects := args }

/-- The call `db.Select(query)`. -/
def DB.Select {ρ : Type} (db : DB ρ) (items : List SelectItem) : DB ρ :=
  { db with selects := items }

/-- The call `db.Offset(n)`. -/
def DB.Offset {ρ : Type} (db : DB ρ) (n : Int) : DB ρ := { db with offset := n.toNat }

/-- The call `db.Limit(n)`; a limit that is not positive leaves the statement
unlimited. -/
def DB.Limit {ρ : Type} (db : DB ρ) (n : Int) : DB ρ :=
  { db with limit := if n > 0 then some n.toNat else none }

/-- The call `db.Preload(name, args...)`; `args` are the conditions of the load. -/
def DB.Preload {ρ : Type} (db : DB ρ) (name : String) (args : List Cond) : DB ρ :=
  { db with preloads := db.preloads ++ [(name, args)] }

/-- The clause `LIMIT limit OFFSET offset` on a result. -/
def DB.paginate {ρ α : Type} (db : DB ρ) (l : List α) : List α :=
  match db.limit with
  | none => l.drop db.offset
  | some n => (l.drop db.offset).take n

/-- The columns an item of the `SELECT` list puts out on a row. -/
def SelectItem.eval {ρ : Type} (tables : List (TableRef ρ)) :
    SelectItem → Except DBError (ρ → List (String × Val))
  | .col ref name =>
    match resolveIn tables ref with
    | none => .error (.unknownColumn ref)
    | some f => .ok fun r => [(name, f r)]
  | .star qual =>
    match tables.find? (fun t => t.qual = qual) with
    | none => .error (.unknownColumn (qual ++ ".*"))
    | some t => .ok fun r =>
      t.columns.filterMap fun c => (t.column c).map fun f => (c, f r)
  | .ifIsNull ref a b name =>
    match resolveIn tables ref with
    | none => .error (.unknownColumn ref)
    | some f => .ok fun r => [(name, if f r = .null then .str a else .str b)]

/-- The output row of a `SELECT` list. -/
def evalSelects {ρ : Type} (tables : List (TableRef ρ)) :
    List SelectItem → Except DBError (ρ → List (String × Val))
  | [] => .ok fun _ => []
  | item :: items =>
    match item.eval tables, evalSelects tables items with
    | .ok f, .ok g => .ok fun r => f r ++ g r
    | .error e, _ => .error e
    | _, .error e => .error e

/-- The call `db.Count(&total)`: `count(*)` without a select list; with the one
selected column `COUNT(DISTINCT(col))` under `Distinct`, else `COUNT(col)`; both
skip nulls. -/
def DB.Count {ρ : Type} (db : DB ρ) : Except DBError Int :=
  match db.Error with
  | some e => .error e
  | none =>
    match db.selects with
    | [.col ref _] =>
      match resolveIn db.tables ref with
      | none => .error (.unknownColumn ref)
      | some f =>
        let vs := (db.rows.map f).filter (· ≠ .null)
        .ok (if db.distinct then vs.dedup.length else vs.length)
    | _ => .ok db.rows.length

/-- The call `db.Find(&dest)` of a statement without a select list on the rows
of a model: the rows, paginated. -/
def DB.Find {ρ : Type} (db : DB ρ) : Except DBError (List ρ) :=
  match db.Error with
  | some e => .error e
  | none => .ok (db.paginate db.rows)

/-- The output rows of a statement with a select list, `DISTINCT` applied when
set, paginated. -/
def DB.Scan {ρ : Type} (db : DB ρ) : Except DBError (List (List (String × Val))) :=
  match db.Error with
  | some e => .error e
  | none =>
    match evalSelects db.tables db.selects with
    | .error e => .error e
    | .ok f =>
      let out := db.rows.map f
      .ok (db.paginate (if db.distinct then out.dedup else out))

/-- A fetched value as text. -/
def Val.text : Val → String
  | .str s => s
  | _ => ""

/-- A fetched value as integer. -/
def Val.num : Val → Int
  | .int i => i
  | _ => 0

/-- The call `db.Pluck(col, &dest)` into a slice of strings; the select list set
before it is kept. -/
def DB.Pluck {ρ : Type} (db : DB ρ) (col : String) : Except DBError (List String) :=
  let db := if db.selects.length = 1 then db else db.Select [.col col col]
  match db.Scan with
  | .error e => .error e
  | .ok out => .ok (out.map fun row => (row.head?.map (·.2.text)).getD "")

/-- The call `db.First(&dest)`: the first row, required. -/
def DB.First {ρ : Type} (db : DB ρ) : Except DBError ρ :=
  match db.Error with
  | some e => .error e
  | none =>
    match db.rows with
    | [] => .error .recordNotFound
    | r :: _ => .ok r

/-! ## `FROM` clauses -/

/-- The right side of a left join for one row of the left side: the matching
rows, or one null-extended row when there is none. -/
def leftJoin {α : Type} : List α → List (Option α)
  | [] => [none]
  | l => l.map some

/-- A row of `customer left join customer_staff cs left join customer_staff_tag
cst`. -/
structure JoinRow where
  customer : Customer
  cs : Option CustomerStaff
  cst : Option CustomerStaffTag
  deriving DecidableEq, Repr, Inhabited

/-- The tables of `JoinRow` by alias. -/
def JoinRow.tables : List (TableRef JoinRow) :=
  [ ⟨"customer", Customer.columns, nullable (fun r => some r.customer) Customer.column⟩,
    ⟨"cs", CustomerStaff.columns, nullable (fun r => r.cs) CustomerStaff.column⟩,
    ⟨"cst", CustomerStaffTag.columns, nullable (fun r => r.cst) CustomerStaffTag.column⟩ ]

/-- The rows of
`customer left join customer_staff cs on customer.ext_id = cs.ext_customer_id
left join customer_staff_tag cst on cst.customer_staff_id = cs.id`. -/
def Store.customerJoin (store : Store) : List JoinRow :=
  store.customer.flatMap fun c =>
    (leftJoin (store.customer_staff.filter fun s => c.ExtID = s.ExtCustomerID)).flatMap fun cs =>
      (leftJoin
        (match cs with
          | none => []
          | some s => store.customer_staff_tag.filter fun t => t.CustomerStaffID = s.ID)).map
        fun cst => { customer := c, cs := cs, cst := cst }

/-- The handle `DB.Table("customer").Joins("left join customer_staff cs on
customer.ext_id = cs.ext_customer_id").Joins("left join customer_staff_tag cst
on cst.customer_staff_id = cs.id")`. -/
def Store.TableCustomer (store : Store) : DB JoinRow :=
  { tables := JoinRow.tables, rows := store.customerJoin }

/-- A row of the `FROM` clause of `ExportQuery`: `JoinRow` joined with `staff s`
and left-joined with `customer_info ci`. -/
structure ExportJoinRow where
  customer : Customer
  cs : Option CustomerStaff
  cst : Option CustomerStaffTag
  s : Staff
  ci : Option CustomerInfo
  deriving DecidableEq, Repr, Inhabited

/-- The tables of `ExportJoinRow` by alias. -/
def ExportJoinRow.tables : List (TableRef ExportJoinRow) :=
  [ ⟨"customer", Customer.columns, nullable (fun r => some r.customer) Customer.column⟩,
    ⟨"cs", CustomerStaff.columns, nullable (fun r => r.cs) CustomerStaff.column⟩,
    ⟨"cst", CustomerStaffTag.columns, nullable (fun r => r.cst) CustomerStaffTag.column⟩,
    ⟨"s", Staff.columns, nullable (fun r => some r.s) Staff.column⟩,
    ⟨"ci", CustomerInfo.columns, nullable (fun r => r.ci) CustomerInfo.column⟩ ]

/-- The rows of `customer left join customer_staff cs ... left join
customer_staff_tag cst ... join staff s on s.ext_id = cs.ext_staff_id left join
customer_info ci on customer.ext_id = ci.ext_customer_id`. -/
def Store.exportJoin (store : Store) : List ExportJoinRow :=
  store.customerJoin.flatMap fun r =>
    (store.staff.filter fun s =>
      match r.cs with
      | none => false
      | some cs => s.ExtID = cs.ExtStaffID).flatMap fun s =>
      (leftJoin (store.customer_info.filter fun i => r.customer.ExtID = i.ExtCustomerID)).map
        fun ci => { customer := r.customer, cs := r.cs, cst := r.cst, s := s, ci := ci }

/-- The handle built by `DB.Table("customer")` and the four `Joins` of
`ExportQuery`. -/
def Store.TableCustomerExport (store : Store) : DB ExportJoinRow :=
  { tables := ExportJoinRow.tables, rows := store.exportJoin }

/-- A row of the `FROM` clause of `QueryExport`: `customer_staff join customer c
join staff s left join customer_info ci`. -/
structure StaffJoinRow where
  customer_staff : CustomerStaff
  c : Customer
  s : Staff
  ci : Option CustomerInfo
  deriving DecidableEq, Repr, Inhabited

/-- The tables of `StaffJoinRow` by alias: `customer` is only known as `c`. -/
def StaffJoinRow.tables : List (TableRef StaffJoinRow) :=
  [ ⟨"customer_staff", CustomerStaff.columns,
      nullable (fun r => some r.customer_staff) CustomerStaff.column⟩,
    ⟨"c", Customer.columns, nullable (fun r => some r.c) Customer.column⟩,
    ⟨"s", Staff.columns, nullable (fun r => some r.s) Staff.column⟩,
    ⟨"ci", CustomerInfo.columns, nullable (fun r => r.ci) CustomerInfo.column⟩ ]

/-- The rows of `customer_staff join customer c on c.ext_id =
customer_staff.ext_customer_id join staff s on s.ext_id =
customer_staff.ext_staff_id left join customer_info ci on c.id =
ci.ext_customer_id`. -/
def Store.staffJoin (store : Store) : List StaffJoinRow :=
  store.customer_staff.flatMap fun cs =>
    (store.customer.filter fun c => c.ExtID = cs.ExtCustomerID).flatMap fun c =>
      (store.staff.filter fun s => s.ExtID = cs.ExtStaffID).flatMap fun s =>
        (leftJoin (store.customer_info.filter fun i => c.ID = i.ExtCustomerID)).map
          fun ci => { customer_staff := cs, c := c, s := s, ci := ci }

/-- The handle `DB.Table("customer_staff")` with the three `Joins` of
`QueryExport`. -/
def Store.TableCustomerStaff (store : Store) : DB StaffJoinRow :=
  { tables := StaffJoinRow.tables, rows := store.staffJoin }

/-- The table `customer` on its own. -/
def Customer.tables : List (TableRef Customer) :=
  [⟨"customer", Customer.columns, nullable some Customer.column⟩]

/-- The table `customer_staff` on its own. -/
def CustomerStaff.tables : List (TableRef CustomerStaff) :=
  [⟨"customer_staff", CustomerStaff.columns, nullable some CustomerStaff.column⟩]

/-- The handle `DB.Model(&Customer{})` (also the one a bare `DB.Where` yields
for a `Find` into customers): the table `customer`. -/
def Store.Model (store : Store) : DB Customer :=
  { tables := Customer.tables, rows := store.customer }

/-- The handle of the statement that loads staff relations: the table
`customer_staff`. -/
def Store.ModelCustomerStaff (store : Store) : DB CustomerStaff :=
  { tables := CustomerStaff.tables, rows := store.customer_staff }

/-! ## Loading associations -/

/-- The preload `Staffs.CustomerStaffTags` for one relation: the tags whose
`customer_staff_id` is the relation's `id`; a zero key loads nothing. -/
def Store.loadTags (store : Store) (s : CustomerStaff) : CustomerStaff :=
  { s with
    CustomerStaffTags :=
      if s.ID = "" then [] else store.customer_staff_tag.filter fun t => t.CustomerStaffID = s.ID }

/-- The preloads of a statement for one owner with key `extID`
(`foreignKey:ExtCustomerID;references:ExtID`).  `Staffs` runs
`ext_customer_id = key` with the conditions of the preload and the soft-delete
clause `deleted_at IS NULL` of the relation model; a zero key loads nothing.
`Staffs.CustomerStaffTags` then loads the tags of each loaded relation. -/
def Store.loadStaffs (store : Store) (preloads : List (String × List Cond)) (extID : String) :
    Except DBError (List CustomerStaff) :=
  match preloads.find? (fun p => p.1 = "Staffs") with
  | none => .ok []
  | some (_, args) =>
    if extID = "" then .ok []
    else
      let db := store.ModelCustomerStaff.Where (.eq "ext_customer_id" (.str extID))
      let db := args.foldl DB.Where db
      let db := db.Where (.isNull "deleted_at")
      match db.Find with
      | .error e => .error e
      | .ok rs =>
        .ok (if preloads.any (fun p => p.1 = "Staffs.CustomerStaffTags")
          then rs.map store.loadTags else rs)

/-- Load the associations of each fetched customer. -/
def Store.preloadAll (store : Store) (preloads : List (String × List Cond)) :
    List Customer → Except DBError (List Customer)
  | [] => .ok []
  | c :: cs =>
    match store.loadStaffs preloads c.ExtID, store.preloadAll preloads cs with
    | .ok staffs, .ok rest => .ok ({ c with Staffs := staffs } :: rest)
    | .error e, _ => .error e
    | _, .error e => .error e

/-- The call `db.Find(&customers)` into a slice of customers, associations
loaded. -/
def Store.FindCustomers (store : Store) (db : DB Customer) : Except DBError (List Customer) :=
  match db.Find with
  | .error e => .error e
  | .ok rows => store.preloadAll db.preloads rows

/-- The call `db.Find(&customer)` into one record: the first row when there is
one, else `customer` is left as it was. -/
def Store.FindCustomer (store : Store) (db : DB Customer) (customer : Customer) :
    Except DBError Customer :=
  match db.Find with
  | .error e => .error e
  | .ok [] => .ok customer
  | .ok (row :: _) =>
    match store.loadStaffs db.preloads row.ExtID with
    | .error e => .error e
    | .ok staffs => .ok { row with Staffs := staffs }

/-- The call `db.First(&customer)` into one record: the first row by primary
key, required (the unique index on `ext_id` leaves at most one row to order). -/
def Store.FirstCustomer (store : Store) (db : DB Customer) : Except DBError Customer :=
  match db.First with
  | .error e => .error e
  | .ok row =>
    match store.loadStaffs db.preloads row.ExtID with
    | .error e => .error e
    | .ok staffs => .ok { row with Staffs := staffs }

/-! ## Writes -/

/-- An assignment of the clause `ON CONFLICT ... DO UPDATE`. -/
inductive Assignment where
  /-- The assignment `col = v` of `clause.Assignments`. -/
  | value (col : String) (v : Val)
  /-- The assignment of `clause.AssignmentColumns`: `col` takes the value the
  statement proposed for insertion. -/
  | proposed (col : String)
  deriving DecidableEq, Repr, Inhabited

/-- The clause `clause.OnConflict`. -/
structure OnConflict where
  Columns : List String
  DoUpdates : List Assignment
  deriving DecidableEq, Repr, Inhabited

/-- The function `clause.Assignments`. -/
def Assignments (values : List (String × Val)) : List Assignment :=
  values.map fun kv => .value kv.1 kv.2

/-- The function `clause.AssignmentColumns`. -/
def AssignmentColumns (cols : List String) : List Assignment := cols.map .proposed

/-- Write a value into a column of a `customer` row. -/
def Customer.setColumn (c : Customer) (col : String) (v : Val) : Customer :=
  match col with
  | "id" => { c with ID := v.text }
  | "ext_corp_id" => { c with ExtCorpID := v.text }
  | "ext_id" => { c with ExtID := v.text }
  | "name" => { c with Name := v.text }
  | "position" => { c with Position := v.text }
  | "corp_name" => { c with CorpName := v.text }
  | "avatar" => { c with Avatar := v.text }
  | "type" => { c with Typ := v.num }
  | "gender" => { c with Gender := v.num }
  | "unionid" => { c with Unionid := v.text }
  | "external_profile" => { c with ExternalProfile := v.text }
  | "created_at" => { c with CreatedAt := v.num.toNat }
  | "updated_at" => { c with UpdatedAt := v.num.toNat }
  | _ => c

/-- Apply one assignment to the stored row `row`; `insert` is the row the
statement proposed. -/
def Assignment.apply (insert : Customer) (row : Customer) : Assignment → Customer
  | .value col v => row.setColumn col v
  | .proposed col =>
    match Customer.column col with
    | none => row
    | some f => row.setColumn col (f insert)

/-- The hook `BeforeCreate`. -/
def Customer.BeforeCreate (o : Customer) : Customer × Option DBError :=
  let o := if o.Avatar = "" then
    { o with Avatar := "https://openscrm.oss-cn-hangzhou.aliyuncs.com/public/avatar.svg" } else o
  let o := if o.Name = "" then { o with Name := "未知" } else o
  (o, none)

/-- The column types that the tags of `Customer` declare. -/
inductive ColumnType where
  | char (n : Nat)
  | varchar (n : Nat)
  | tinyint
  /-- No type declared here: the column holds every value of its Go type. -/
  | free
  deriving DecidableEq, Repr, Inhabited

/-- The declared types of the columns of table `customer`: the `type:` key of
each field tag.  The tag of `Position` has no `type:` key. -/
def Customer.columnType : String → ColumnType
  | "ext_id" => .char 64
  | "name" => .varchar 255
  | "corp_name" => .varchar 255
  | "avatar" => .varchar 255
  | "type" => .tinyint
  | "gender" => .tinyint
  | "unionid" => .varchar 128
  | _ => .free

/-- Does a column of this type hold the value?  Texts are measured in
characters, `tinyint` is signed. -/
def ColumnType.holds : ColumnType → Val → Bool
  | .char n, .str s => decide (s.length ≤ n)
  | .varchar n, .str s => decide (s.length ≤ n)
  | .tinyint, .int i => decide (-128 ≤ i) && decide (i ≤ 127)
  | _, _ => true

/-- Does column `col` hold the value the row has for it? -/
def Customer.holdsColumn (c : Customer) (col : String) : Bool :=
  match Customer.column col with
  | none => true
  | some f => (Customer.columnType col).holds (f c)

/-- The first column of the row whose declared type does not hold its value. -/
def Customer.misfit (c : Customer) : Option String :=
  Customer.columns.find? fun col => !c.holdsColumn col

/-- Every column of table `customer` holds the value the row has for it. -/
def Customer.Fits (c : Customer) : Prop := c.misfit = none

instance (c : Customer) : Decidable c.Fits := by
  unfold Customer.Fits; infer_instance

/-- The column an assignment writes a value into that the column does not hold;
a proposed value has been checked with the proposed row. -/
def Assignment.misfit : Assignment → Option String
  | .value col v => if (Customer.columnType col).holds v then none else some col
  | .proposed _ => none

/-- The unique keys of table `customer` in the order the engine checks them: the
primary key, then the unique index `idx_ext_customer_id`. -/
def Customer.uniqueKeys : List String := ["id", "ext_id"]

/-- Do two rows have the same value in column `key`? -/
def Customer.sameKey (key : String) (insert row : Customer) : Bool :=
  match Customer.column key with
  | none => false
  | some f => decide (f insert = f row)

/-- The first row for which `p` holds takes `f`. -/
def updateFirst (p : Customer → Bool) (f : Customer → Customer) : List Customer → List Customer
  | [] => []
  | row :: rows => if p row then f row :: rows else row :: updateFirst p f rows

/-- One row of an `INSERT ... ON DUPLICATE KEY UPDATE` on table `customer`.  A
proposed value that its column does not hold fails the statement.  Else the
first unique key that a stored row shares with the proposed row selects that
stored row: it takes the assignments, whose values their columns must hold, and
nothing is inserted.  With no such key the row is appended.  The columns the
clause names are not rendered. -/
def insertRow (oc : OnConflict) (table : List Customer) (insert : Customer) :
    Except DBError (List Customer) :=
  match insert.misfit with
  | some col => .error (.outOfRange col)
  | none =>
    match Customer.uniqueKeys.find? fun key => table.any (Customer.sameKey key insert) with
    | none => .ok (table ++ [insert])
    | some key =>
      match oc.DoUpdates.findSome? Assignment.misfit with
      | some col => .error (.outOfRange col)
      | none =>
        .ok (updateFirst (Customer.sameKey key insert)
          (fun row => oc.DoUpdates.foldl (Assignment.apply insert) row) table)

/-- The rows of one `INSERT` statement for `values` at time `now`: the hook
`BeforeCreate` runs on each value, the zero creation and update times are set to
`now`, the association `Staffs` is left out, and the rows are written one after
the other. -/
def insertRows (oc : OnConflict) (now : Nat) :
    List Customer → List Customer → Except DBError (List Customer)
  | table, [] => .ok table
  | table, value :: values =>
    match value.BeforeCreate with
    | (_, some e) => .error e
    | (value, none) =>
      let insert : Customer :=
        { value with
          Staffs := []
          CreatedAt := if value.CreatedAt = 0 then now else value.CreatedAt
          UpdatedAt := if value.UpdatedAt = 0 then now else value.UpdatedAt }
      match insertRow oc table insert with
      | .error e => .error e
      | .ok table => insertRows oc now table values

/-- The call `DB.Clauses(oc).Omit("Staffs").Create(&values)` at time `now`: one
statement, which writes all its rows or, on an error, none. -/
def Store.Create (store : Store) (now : Nat) (oc : OnConflict) (values : List Customer) :
    Store × Option DBError :=
  match insertRows oc now store.customer values with
  | .error e => (store, some e)
  | .ok table => ({ store with customer := table }, none)

/-- The slices `values[i:i+batchSize]` for `i = 0, batchSize, ...`. -/
def batches {α : Type} (values : List α) (batchSize : Nat) : List (List α) :=
  (List.range ((values.length + batchSize - 1) / batchSize)).map fun k =>
    (values.drop (k * batchSize)).take batchSize

/-- The call `CreateInBatches(&values, batchSize)`: one `Create` per slice,
stopping at the first error, which undoes the slices written before it. -/
def Store.CreateInBatches (store : Store) (now : Nat) (oc : OnConflict) (values : List Customer)
    (batchSize : Nat) : Store × Option DBError :=
  match (batches values batchSize).foldl
    (fun acc batch =>
      match acc with
      | (st, some e) => (st, some e)
      | (st, none) => st.Create now oc batch)
    (store, none) with
  | (_, some e) => (store, some e)
  | (st, none) => (st, none)

/-- The method `BatchUpsert`; `errors.WithStack` keeps the error. -/
def Customer.BatchUpsert (store : Store) (now : Nat) (customers : List Customer) :
    Store × Option DBError :=
  store.CreateInBatches now
    { Columns := ["ext_id"]
      DoUpdates := AssignmentColumns
        ["position", "name", "corp_name", "avatar", "type", "gender", "unionid",
          "external_profile"] }
    customers 100

/-- The method `Upsert`. -/
def Customer.Upsert (store : Store) (now : Nat) (customer : Customer) : Store × Option DBError :=
  let updateFields : List (String × Val) :=
    [ ("name", .str customer.Name),
      ("position", .str customer.Position),
      ("corp_name", .str customer.CorpName),
      ("avatar", .str customer.Avatar),
      ("type", .int customer.Typ),
      ("gender", .int customer.Gender),
      ("unionid", .str customer.Unionid),
      ("external_profile", .str customer.ExternalProfile) ]
  store.Create now { Columns := ["ext_id"], DoUpdates := Assignments updateFields } [customer]

/-! ## Reads by key -/

/-- The method `Get`. -/
def Customer.Get (store : Store) (ID extCorpID : String) (withStaffRelation : Bool) :
    Customer × Option DBError :=
  let customer : Customer := {}
  let db := store.Model.Where (.and (.eq "id" (.str ID)) (.eq "ext_corp_id" (.str extCorpID)))
  let db := if withStaffRelation then
    (db.Preload "Staffs" []).Preload "Staffs.CustomerStaffTags" [] else db
  match store.FindCustomer db customer with
  | .error err => (customer, some (.wrap err "Get customer by id failed"))
  | .ok customer => (customer, none)

/-- The method `GetByExtID`; `extStaffIDs` is `none` for a nil slice. -/
def Customer.GetByExtID (store : Store) (ExtCustomerID : String)
    (extStaffIDs : Option (List String)) (withStaffRelation : Bool) :
    Customer × Option DBError :=
  let db := store.Model
  let db := if withStaffRelation then
    match extStaffIDs with
    | some ids =>
      (db.Preload "Staffs" [.inList "ext_staff_id" (ids.map .str)]).Preload
        "Staffs.CustomerStaffTags" []
    | none => (db.Preload "Staffs" []).Preload "Staffs.CustomerStaffTags" []
    else db
  match store.FirstCustomer (db.Where (.eq "ext_id" (.str ExtCustomerID))) with
  | .error err => ({}, some (.wrap err "Get customer by id failed"))
  | .ok customer => (customer, none)

/-! ## Filtered, paginated reads -/

/-- Fill a `CustomerExportItem` from an output row, column by column name; a
column the row lacks, or a null, leaves the zero value. -/
def CustomerExportItem.scan (row : List (String × Val)) : CustomerExportItem :=
  let get := fun (name : String) => ((row.find? fun kv => kv.1 = name).map (·.2)).getD .null
  { ExtID := (get "ext_id").text
    CustomerName := (get "customer_name").text
    CustomerCorpName := (get "customer_corp_name").text
    StaffName := (get "staff_name").text
    Remark := (get "remark").text
    Description := (get "description").text
    Status := (get "status").text
    Createtime := (get "createtime").text
    AddWay := (get "add_way").num
    Age := (get "age").num
    Gender := (get "gender").num
    Birthday := (get "birthday").text
    PhoneNumber := (get "phone_number").text }

/-- Load the associations of each fetched export item
(`foreignKey:ExtCustomerID;references:ExtID`). -/
def Store.preloadExport (store : Store) (preloads : List (String × List Cond)) :
    List CustomerExportItem → Except DBError (List CustomerExportItem)
  | [] => .ok []
  | c :: cs =>
    match store.loadStaffs preloads c.ExtID, store.preloadExport preloads cs with
    | .ok staffs, .ok rest => .ok ({ c with Staffs := staffs } :: rest)
    | .error e, _ => .error e
    | _, .error e => .error e

/-- The call `db.Find(&res)` of a statement with a select list into a slice of
export items, associations loaded. -/
def Store.FindExport {ρ : Type} (store : Store) (db : DB ρ) :
    Except DBError (List CustomerExportItem) :=
  match db.Scan with
  | .error e => .error e
  | .ok out => store.preloadExport db.preloads (out.map CustomerExportItem.scan)

/-- The statement `db` of `QueryExport` with the filters of the request, as it
stands when it is counted. -/
def Customer.QueryExport.db (store : Store) (req : QueryCustomerReq) : DB StaffJoinRow :=
  let db := store.TableCustomerStaff
  let db := if req.Name ≠ "" then db.Where (.like "customer.name" (req.Name ++ "%")) else db
  let db := if req.Gender ≠ 0 then db.Where (.eq "customer.gender" (.int req.Gender)) else db
  let db := if req.Typ ≠ 0 then db.Where (.eq "customer.type" (.int req.Typ)) else db
  let db := if req.ExtStaffIDs.length > 0 then
    db.Where (.inList "cs.ext_staff_ids" (req.ExtStaffIDs.map .str)) else db
  db

/-- The method `QueryExport`; `extCorpID` is not used. -/
def Customer.QueryExport (store : Store) (req : QueryCustomerReq) (extCorpID : String)
    (pager : Pager) : List CustomerExportItem × Int × Option DBError :=
  let _ := extCorpID
  let db := Customer.QueryExport.db store req
  match db.Count with
  | .error err => ([], 0, some err)
  | .ok total =>
    let pageOffset := GetPageOffset pager.Page pager.PageSize
    let db := if pageOffset ≥ 0 ∧ pager.PageSize > 0 then
      (db.Offset pageOffset).Limit pager.PageSize else db
    match store.FindExport ((db.Preload "Staffs" []).Select [.star "customer"]) with
    | .error err => ([], 0, some err)
    | .ok res => (res, total, none)

/-- The statement `db` of `ExportQuery` with the filters of the request, as it
stands before `Distinct("customer.id")`. -/
def Customer.ExportQuery.db (store : Store) (req : QueryCustomerReq) (extCorpID : String) :
    DB ExportJoinRow :=
  let db := store.TableCustomerExport.Where (.eq "cs.ext_corp_id" (.str extCorpID))
  let db := if req.Name ≠ "" then db.Where (.like "customer.name" (req.Name ++ "%")) else db
  let db := if req.Gender ≠ 0 then db.Where (.eq "customer.gender" (.int req.Gender)) else db
  let db := if req.Typ ≠ 0 then db.Where (.eq "customer.type" (.int req.Typ)) else db
  let db := if req.ExtStaffIDs.length > 0 then
    db.Where (.inList "cs.ext_staff_id" (req.ExtStaffIDs.map .str)) else db
  let db := if req.StartTime ≠ "" then
    db.Where (.between "createtime" (.str req.StartTime) (.str req.EndTime)) else db
  let db := if req.ExtTagIDs.length > 0 then
    db.Where (.inList "cst.ext_tag_id" (req.ExtTagIDs.map .str)) else db
  let db := if req.ChannelType > 0 then db.Where (.eq "cs.add_way" (.int req.ChannelType)) else db
  db

/-- The method `ExportQuery`; the handle that counted is the handle that
fetches, so `Distinct` stays set. `errors.WithStack` keeps the error. -/
def Customer.ExportQuery (defaultPageSize : Int) (store : Store) (req : QueryCustomerReq)
    (extCorpID : String) (pager : Pager) : List CustomerExportItem × Int × Option DBError :=
  let db := (Customer.ExportQuery.db store req extCorpID).Distinct [.col "customer.id" "id"]
  match db.Count with
  | .error err => ([], 0, some err)
  | .ok total =>
    let pager := pager.SetDefault defaultPageSize
    let db := (db.Offset pager.GetOffset).Limit pager.GetLimit
    let db := ((db.Preload "Staffs" []).Preload "Staffs.CustomerStaffTags" []).Select
      [ .col "customer.name" "customer_name", .col "customer.corp_name" "customer_corp_name",
        .col "s.name" "staff_name", .col "cs.remark" "remark",
        .col "cs.description" "description",
        .ifIsNull "cs.deleted_at" "未流失" "已流失" "status",
        .col "cs.createtime" "createtime", .col "cs.add_way" "add_way", .col "ci.age" "age",
        .col "customer.gender" "gender", .col "ci.birthday" "birthday",
        .col "ci.phone_number" "phone_number" ]
    match store.FindExport db with
    | .error err => ([], 0, some err)
    | .ok customers => (customers, total, none)

/-- The statement `db` of `Query`: the joined statement with the filters of the
request, as it stands when it is counted. -/
def Customer.Query.db (store : Store) (req : QueryCustomerReq) (extCorpID : String) :
    DB JoinRow :=
  let db := store.TableCustomer.Where
    (.or (.eq "customer.ext_corp_id" (.str extCorpID)) (.eq "cs.ext_corp_id" (.str extCorpID)))
  let db := if req.Name ≠ "" then db.Where (.like "customer.name" (req.Name ++ "%")) else db
  let db := if req.Gender ≠ 0 then db.Where (.eq "customer.gender" (.int req.Gender)) else db
  let db := if req.Typ ≠ 0 then db.Where (.eq "customer.type" (.int req.Typ)) else db
  let db := if req.ExtStaffIDs.length > 0 then
    db.Where (.inList "cs.ext_staff_id" (req.ExtStaffIDs.map .str)) else db
  let db := if req.StartTime ≠ "" then
    db.Where (.between "cs.createtime" (.str req.StartTime) (.str req.EndTime)) else db
  let db := if req.ExtTagIDs.length > 0 then
    db.Where (.inList "cst.ext_tag_id" (req.ExtTagIDs.map .str)) else db
  let db := if req.ChannelType > 0 then db.Where (.eq "cs.add_way" (.int req.ChannelType)) else db
  let db := if req.OutFlowStatus = 1 then db.Unscoped.Where (.isNotNull "cs.deleted_at")
    else if req.OutFlowStatus = 2 then db.Where (.isNull "cs.deleted_at") else db
  db

/-- The statement `idQuery` of `Query`, built anew with the same filters, as it
stands before `Distinct().Select(...)`. -/
def Customer.Query.idQuery (store : Store) (req : QueryCustomerReq) (extCorpID : String) :
    DB JoinRow :=
  let idQuery := store.TableCustomer.Where
    (.or (.eq "customer.ext_corp_id" (.str extCorpID)) (.eq "cs.ext_corp_id" (.str extCorpID)))
  let idQuery := if req.Name ≠ "" then
    idQuery.Where (.like "customer.name" (req.Name ++ "%")) else idQuery
  let idQuery := if req.Gender ≠ 0 then
    idQuery.Where (.eq "customer.gender" (.int req.Gender)) else idQuery
  let idQuery := if req.Typ ≠ 0 then
    idQuery.Where (.eq "customer.type" (.int req.Typ)) else idQuery
  let idQuery := if req.ExtStaffIDs.length > 0 then
    idQuery.Where (.inList "cs.ext_staff_id" (req.ExtStaffIDs.map .str)) else idQuery
  let idQuery := if req.StartTime ≠ "" then
    idQuery.Where (.between "cs.createtime" (.str req.StartTime) (.str req.EndTime))
    else idQuery
  let idQuery := if req.ExtTagIDs.length > 0 then
    idQuery.Where (.inList "cst.ext_tag_id" (req.ExtTagIDs.map .str)) else idQuery
  let idQuery := if req.ChannelType > 0 then
    idQuery.Where (.eq "cs.add_way" (.int req.ChannelType)) else idQuery
  let idQuery := if req.OutFlowStatus = 1 then
    idQuery.Unscoped.Where (.isNotNull "cs.deleted_at")
    else if req.OutFlowStatus = 2 then idQuery.Where (.isNull "cs.deleted_at") else idQuery
  idQuery

/-- The statement `directDB` of the fallback of `Query`, as it stands when it
is counted. -/
def Customer.Query.directDB (store : Store) (req : QueryCustomerReq) (extCorpID : String) :
    DB Customer :=
  let directDB := store.Model.Where (.eq "ext_corp_id" (.str extCorpID))
  let directDB := if req.Name ≠ "" then
    directDB.Where (.like "name" (req.Name ++ "%")) else directDB
  let directDB := if req.Gender ≠ 0 then
    directDB.Where (.eq "gender" (.int req.Gender)) else directDB
  let directDB := if req.Typ ≠ 0 then
    directDB.Where (.eq "type" (.int req.Typ)) else directDB
  directDB

/-- The count of the joined statement of `Query`:
`db.Distinct("customer.id").Count(&total)`. -/
def Customer.Query.count (store : Store) (req : QueryCustomerReq) (extCorpID : String) :
    Except DBError Int :=
  ((Customer.Query.db store req extCorpID).Distinct [.col "customer.id" "id"]).Count

/-- The two-phase fetch of `Query` for a pager with its defaults set: the page
of distinct external IDs, then the customers with these IDs, associations
loaded. -/
def Customer.Query.fetch (store : Store) (req : QueryCustomerReq) (extCorpID : String)
    (pager : Pager) : Except DBError (List Customer) :=
  let customers : List Customer := []
  let idQuery := Customer.Query.idQuery store req extCorpID
  let idQuery := (((idQuery.Distinct []).Select [.col "customer.ext_id" "ext_id"]).Offset
    pager.GetOffset).Limit pager.GetLimit
  match idQuery.Pluck "customer.ext_id" with
  | .error err => .error err
  | .ok customerIDs =>
    if customerIDs.length > 0 then
      store.FindCustomers
        (((store.Model.Where (.inList "ext_id" (customerIDs.map .str))).Preload "Staffs"
          []).Preload "Staffs.CustomerStaffTags" [])
    else .ok customers

/-- The method `Query`.  The calls to the logging sink have no effect on the
result; `errors.WithStack` keeps the error. -/
def Customer.Query (defaultPageSize : Int) (store : Store) (req : QueryCustomerReq)
    (extCorpID : String) (pager : Pager) : List Customer × Int × Option DBError :=
  match Customer.Query.count store req extCorpID with
  | .error countErr => ([], 0, some countErr)
  | .ok total =>
    let pager := pager.SetDefault defaultPageSize
    match Customer.Query.fetch store req extCorpID pager with
    | .error err => ([], 0, some err)
    | .ok customers =>
      if total = 0 then
        let directDB := Customer.Query.directDB store req extCorpID
        match directDB.Count with
        | .error _ => (customers, total, none)
        | .ok directTotal =>
          if directTotal > 0 then
            let directDB := (((directDB.Offset pager.GetOffset).Limit pager.GetLimit).Preload
              "Staffs" []).Preload "Staffs.CustomerStaffTags" []
            match store.FindCustomers directDB with
            | .error _ => (customers, total, none)
            | .ok found => (found, directTotal, none)
          else (customers, total, none)
      else (customers, total, none)

/-! ## Auxiliary definitions for the statements below -/

/-- A handle restricted to the rows that satisfy `P`. -/
def DB.restrict {ρ : Type} (db : DB ρ) (P : ρ → Bool) : DB ρ :=
  { db with rows := db.rows.filter P }

/-- The staff relations a preload shows for the owner key `e`: nothing for the
zero key, else the rows of `customer_staff` for this key that are not
soft-deleted and satisfy `keep`, each with its tags. -/
def Store.liveStaffs (store : Store) (e : String) (keep : CustomerStaff → Bool) :
    List CustomerStaff :=
  if e = "" then []
  else
    (store.customer_staff.filter fun s => s.ExtCustomerID = e ∧ keep s ∧ s.DeletedAt = none).map
      store.loadTags

/-- A store with two customers; the first has a live and a soft-deleted staff
relation. -/
def sampleStore : Store :=
  { customer :=
      [ { ID := "1", ExtCorpID := "corp", ExtID := "e1", Name := "Ann", Gender := 1 },
        { ID := "2", ExtCorpID := "corp", ExtID := "e2", Name := "Bob", Gender := 2 } ]
    customer_staff :=
      [ { ID := "10", ExtCorpID := "corp", ExtStaffID := "s1", ExtCustomerID := "e1",
          AddWay := 1 },
        { ID := "11", ExtCorpID := "corp", ExtStaffID := "s2", ExtCustomerID := "e1",
          AddWay := 2, DeletedAt := some "2024-01-01 00:00:00" } ]
    customer_staff_tag := [ { ID := "100", CustomerStaffID := "10", ExtTagID := "t1" } ]
    staff := [ { ExtID := "s1", Name := "Staff1" }, { ExtID := "s2", Name := "Staff2" } ]
    customer_info := [ { ExtCustomerID := "e1", Age := 30 } ] }

/-- A store whose only customer has the empty external ID, with one live staff
relation under that key. -/
def zeroKeyStore : Store :=
  { customer := [ { ID := "1", ExtCorpID := "corp", ExtID := "", Name := "Ann" } ]
    customer_staff :=
      [ { ID := "10", ExtCorpID := "corp", ExtStaffID := "s1", ExtCustomerID := "" } ] }

/-- The row `row` with the fields of the conflict policy taken from `src`. -/
def Customer.overwrite (row src : Customer) : Customer :=
  { row with
    Name := src.Name
    Position := src.Position
    CorpName := src.CorpName
    Avatar := src.Avatar
    Typ := src.Typ
    Gender := src.Gender
    Unionid := src.Unionid
    ExternalProfile := src.ExternalProfile }

/-- The row a `Create` proposes for `value` at time `now`. -/
def Customer.proposal (value : Customer) (now : Nat) : Customer :=
  { value.BeforeCreate.1 with
    Staffs := []
    CreatedAt := if value.BeforeCreate.1.CreatedAt = 0 then now else value.BeforeCreate.1.CreatedAt
    UpdatedAt := if value.BeforeCreate.1.UpdatedAt = 0 then now else value.BeforeCreate.1.UpdatedAt }

/-- The conflict clause of `Upsert` for the argument `customer`. -/
def upsertClause (customer : Customer) : OnConflict :=
  { Columns := ["ext_id"]
    DoUpdates := Assignments
      [ ("name", .str customer.Name),
        ("position", .str customer.Position),
        ("corp_name", .str customer.CorpName),
        ("avatar", .str customer.Avatar),
        ("type", .int customer.Typ),
        ("gender", .int customer.Gender),
        ("unionid", .str customer.Unionid),
        ("external_profile", .str customer.ExternalProfile) ] }

/-- The conflict clause of `BatchUpsert`. -/
def batchClause : OnConflict :=
  { Columns := ["ext_id"]
    DoUpdates := AssignmentColumns
      ["position", "name", "corp_name", "avatar", "type", "gender", "unionid",
        "external_profile"] }

/-- The primary key of `c` is not that of a stored row with another external
ID. -/
def Store.OwnsID (store : Store) (c : Customer) : Prop :=
  ∀ row ∈ store.customer, row.ID = c.ID → row.ExtID = c.ExtID

instance (store : Store) (c : Customer) : Decidable (store.OwnsID c) := by
  unfold Store.OwnsID; infer_instance

/-- The table after one upserted row `insert` whose duplicate key, if any, is
the external ID; `upd` is the update of the conflict clause. -/
def upsertInto (upd : Customer → Customer) (table : List Customer) (insert : Customer) :
    List Customer :=
  if insert.ExtID ∈ table.map (·.ExtID) then
    table.map fun row => if insert.ExtID = row.ExtID then upd row else row
  else table ++ [insert]

/-- The fields of the conflict policy agree. -/
def Customer.sameFields (a b : Customer) : Prop :=
  a.Name = b.Name ∧ a.Position = b.Position ∧ a.CorpName = b.CorpName ∧ a.Avatar = b.Avatar ∧
    a.Typ = b.Typ ∧ a.Gender = b.Gender ∧ a.Unionid = b.Unionid ∧
    a.ExternalProfile = b.ExternalProfile

/-- The store holds exactly one customer row with the external ID of `d`, and
that row has the policy fields of `d`. -/
def Store.HoldsOnce (s : Store) (d : Customer) : Prop :=
  ∃ row, s.customer.filter (fun r => decide (r.ExtID = d.ExtID)) = [row] ∧ row.sameFields d

/-- The first of two writes under the key `e1`. -/
def firstWrite : Customer :=
  { ID := "7", ExtCorpID := "corp", ExtID := "e1", Name := "Al", Avatar := "a.png" }

/-- The second write under the key `e1`, with an empty name. -/
def secondWrite : Customer :=
  { ID := "8", ExtCorpID := "corp", ExtID := "e1", Name := "", Avatar := "b.png", Gender := 2 }

/-- A write under the new key `e9` that carries the primary key of the stored
row `e1` of the sample store. -/
def takenKeyWrite : Customer :=
  { ID := "1", ExtCorpID := "corp", ExtID := "e9", Name := "Zed", Avatar := "z.png" }

/-- A write under the key `e1` whose gender is no `tinyint`. -/
def wideGenderWrite : Customer :=
  { ID := "7", ExtCorpID := "corp", ExtID := "e1", Name := "Al", Avatar := "a.png",
    Gender := 300 }

/-- The filters of a request on a joined row, in the order `Query` adds them:
corp, name, gender, type, staff IDs, date range, tag IDs, channel, churn. -/
def JoinRow.passes (req : QueryCustomerReq) (extCorpID : String) (r : JoinRow) : Bool :=
  (decide (r.customer.ExtCorpID = extCorpID) || r.cs.any fun s => s.ExtCorpID = extCorpID) &&
  (decide (req.Name = "") || sqlLike r.customer.Name (req.Name ++ "%")) &&
  (decide (req.Gender = 0) || decide (r.customer.Gender = req.Gender)) &&
  (decide (req.Typ = 0) || decide (r.customer.Typ = req.Typ)) &&
  (decide (req.ExtStaffIDs = []) || r.cs.any fun s => s.ExtStaffID ∈ req.ExtStaffIDs) &&
  (decide (req.StartTime = "") || r.cs.any fun s =>
    leChars req.StartTime.data s.Createtime.data && leChars s.Createtime.data req.EndTime.data) &&
  (decide (req.ExtTagIDs = []) || r.cst.any fun t => t.ExtTagID ∈ req.ExtTagIDs) &&
  (decide (req.ChannelType ≤ 0) || r.cs.any fun s => s.AddWay = req.ChannelType) &&
  (if req.OutFlowStatus = 1 then r.cs.any fun s => s.DeletedAt.isSome
    else if req.OutFlowStatus = 2 then r.cs.all fun s => s.DeletedAt.isNone else true)

/-- The joined rows that pass the filters of a request. -/
def Store.joined (store : Store) (req : QueryCustomerReq) (extCorpID : String) : List JoinRow :=
  store.customerJoin.filter (JoinRow.passes req extCorpID)

/-- The page a pager cuts out of a result (`Offset(GetOffset()).Limit(GetLimit())`). -/
def Pager.slice {α : Type} (pager : Pager) (l : List α) : List α :=
  match (if pager.GetLimit > 0 then some pager.GetLimit.toNat else none : Option Nat) with
  | none => l.drop pager.GetOffset.toNat
  | some n => (l.drop pager.GetOffset.toNat).take n

/-- A customer row with its live staff relations loaded, each with its tags. -/
def Store.withStaffs (store : Store) (c : Customer) : Customer :=
  { c with Staffs := store.liveStaffs c.ExtID fun _ => true }

/-- The filters the fallback of `Query` keeps: corp, name, gender, type. -/
def Customer.passesDirect (req : QueryCustomerReq) (extCorpID : String) (c : Customer) : Bool :=
  decide (c.ExtCorpID = extCorpID) &&
  (decide (req.Name = "") || sqlLike c.Name (req.Name ++ "%")) &&
  (decide (req.Gender = 0) || decide (c.Gender = req.Gender)) &&
  (decide (req.Typ = 0) || decide (c.Typ = req.Typ))

/-- The tags joined to a relation side of a joined row. -/
def Store.tagsOf (store : Store) (cs : Option CustomerStaff) : List CustomerStaffTag :=
  match cs with
  | none => []
  | some s => store.customer_staff_tag.filter fun t => t.CustomerStaffID = s.ID

/-- The customers `Query` returns for the pages `1, ..., n` of the given size,
one page after the other. -/
def Customer.Query.pages (defaultPageSize : Int) (store : Store) (req : QueryCustomerReq)
    (extCorpID : String) (size : Int) (n : Nat) : List Customer :=
  (List.range n).flatMap fun k =>
    (Customer.Query defaultPageSize store req extCorpID { Page := k + 1, PageSize := size }).1

/-- What the filters of `QueryExport` leave of a handle: its tables and empty
select list, and no error other than an unresolved reference. -/
def ExportInv (db : DB StaffJoinRow) : Prop :=
  db.tables = StaffJoinRow.tables ∧ db.selects = [] ∧
    (db.Error = none ∨ ∃ ref, db.Error = some (.unknownColumn ref))

/-- The filters of a request on a row of the `FROM` clause of `ExportQuery`, in
the order it adds them: corp of the relation, name, gender, type, staff IDs,
date range, tag IDs, channel. -/
def ExportJoinRow.passes (req : QueryCustomerReq) (extCorpID : String) (r : ExportJoinRow) :
    Bool :=
  (r.cs.any fun s => s.ExtCorpID = extCorpID) &&
  (decide (req.Name = "") || sqlLike r.customer.Name (req.Name ++ "%")) &&
  (decide (req.Gender = 0) || decide (r.customer.Gender = req.Gender)) &&
  (decide (req.Typ = 0) || decide (r.customer.Typ = req.Typ)) &&
  (decide (req.ExtStaffIDs = []) || r.cs.any fun s => s.ExtStaffID ∈ req.ExtStaffIDs) &&
  (decide (req.StartTime = "") || r.cs.any fun s =>
    leChars req.StartTime.data s.Createtime.data && leChars s.Createtime.data req.EndTime.data) &&
  (decide (req.ExtTagIDs = []) || r.cst.any fun t => t.ExtTagID ∈ req.ExtTagIDs) &&
  (decide (req.ChannelType ≤ 0) || r.cs.any fun s => s.AddWay = req.ChannelType)

/-! # Theorems -/

/-! ## Statement handles: elementary facts -/

@[simp] theorem DB.restrict_tables {ρ : Type} (db : DB ρ) (P : ρ → Bool) :
    (db.restrict P).tables = db.tables := rfl

@[simp] theorem DB.restrict_rows {ρ : Type} (db : DB ρ) (P : ρ → Bool) :
    (db.restrict P).rows = db.rows.filter P := rfl

@[simp] theorem DB.restrict_Error {ρ : Type} (db : DB ρ) (P : ρ → Bool) :
    (db.restrict P).Error = db.Error := rfl

@[simp] theorem DB.restrict_limit {ρ : Type} (db : DB ρ) (P : ρ → Bool) :
    (db.restrict P).limit = db.limit := rfl

@[simp] theorem DB.restrict_offset {ρ : Type} (db : DB ρ) (P : ρ → Bool) :
    (db.restrict P).offset = db.offset := rfl

@[simp] theorem DB.restrict_selects {ρ : Type} (db : DB ρ) (P : ρ → Bool) :
    (db.restrict P).selects = db.selects := rfl

@[simp] theorem DB.restrict_distinct {ρ : Type} (db : DB ρ) (P : ρ → Bool) :
    (db.restrict P).distinct = db.distinct := rfl

@[simp] theorem DB.restrict_preloads {ρ : Type} (db : DB ρ) (P : ρ → Bool) :
    (db.restrict P).preloads = db.preloads := rfl

@[simp] theorem DB.restrict_restrict {ρ : Type} (db : DB ρ) (P Q : ρ → Bool) :
    (db.restrict P).restrict Q = db.restrict (fun r => P r && Q r) := by
  simp [DB.restrict, List.filter_filter, Bool.and_comm]

theorem DB.Where_ok {ρ : Type} (db : DB ρ) (T : List (TableRef ρ)) (cond : Cond)
    (p : ρ → Bool) (hT : db.tables = T)
    (h : cond.compile (resolveIn T) = .ok fun r => some (p r)) :
    db.Where cond = db.restrict p := by
  unfold DB.Where DB.restrict; rw [hT, h]; simp

theorem compile_staff_key (e : String) :
    Cond.compile (resolveIn CustomerStaff.tables) (.eq "ext_customer_id" (.str e)) =
      .ok (fun s => some (decide (s.ExtCustomerID = e))) := by
  have : Cond.compile (resolveIn CustomerStaff.tables) (.eq "ext_customer_id" (.str e)) =
      .ok (fun s => if Val.str s.ExtCustomerID = .null ∨ Val.str e = .null then none else some (decide (Val.str s.ExtCustomerID = .str e))) := rfl
  rw [this]; simp

theorem compile_staff_in (ids : List String) :
    Cond.compile (resolveIn CustomerStaff.tables) (.inList "ext_staff_id" (ids.map .str)) =
      .ok (fun s => some (decide (s.ExtStaffID ∈ ids))) := by
  have : Cond.compile (resolveIn CustomerStaff.tables) (.inList "ext_staff_id" (ids.map .str)) =
      .ok (fun s => if Val.str s.ExtStaffID = .null then none else some (decide (Val.str s.ExtStaffID ∈ ids.map .str))) := rfl
  rw [this]; simp

theorem compile_staff_live :
    Cond.compile (resolveIn CustomerStaff.tables) (.isNull "deleted_at") =
      .ok (fun s => some (decide (s.DeletedAt = none))) := by
  have : Cond.compile (resolveIn CustomerStaff.tables) (.isNull "deleted_at") =
      .ok (fun s => some (decide (Val.ofTime s.DeletedAt = .null))) := rfl
  rw [this]
  congr 1; funext s; cases h : s.DeletedAt <;> simp [Val.ofTime]

@[simp] theorem Store.ModelCustomerStaff_tables (store : Store) :
    store.ModelCustomerStaff.tables = CustomerStaff.tables := rfl

@[simp] theorem Store.Model_tables (store : Store) : store.Model.tables = Customer.tables := rfl

theorem where_staff_key (db : DB CustomerStaff) (h : db.tables = CustomerStaff.tables)
    (e : String) :
    db.Where (.eq "ext_customer_id" (.str e)) = db.restrict fun s => s.ExtCustomerID = e :=
  DB.Where_ok db _ _ _ h (compile_staff_key e)

theorem where_staff_in (db : DB CustomerStaff) (h : db.tables = CustomerStaff.tables)
    (ids : List String) :
    db.Where (.inList "ext_staff_id" (ids.map .str)) = db.restrict fun s => s.ExtStaffID ∈ ids :=
  DB.Where_ok db _ _ _ h (compile_staff_in ids)

theorem where_staff_live (db : DB CustomerStaff) (h : db.tables = CustomerStaff.tables) :
    db.Where (.isNull "deleted_at") = db.restrict fun s => s.DeletedAt = none :=
  DB.Where_ok db _ _ _ h compile_staff_live

theorem loadStaffs_all (store : Store) (e : String)  : 
    store.loadStaffs [("Staffs", []), ("Staffs.CustomerStaffTags", [])] e =
      .ok (store.liveStaffs e fun _ => true) := by
  by_cases h : e = ""
  · simp [Store.loadStaffs, Store.liveStaffs, h]
  · simp [Store.loadStaffs, h, where_staff_key, where_staff_live, DB.Find, DB.paginate,
      Store.liveStaffs, Store.ModelCustomerStaff]

theorem loadStaffs_in (store : Store) (e : String) (ids : List String) : 
    store.loadStaffs [("Staffs", [.inList "ext_staff_id" (ids.map .str)]), ("Staffs.CustomerStaffTags", [])] e =
      .ok (store.liveStaffs e fun s => s.ExtStaffID ∈ ids) := by
  by_cases h : e = ""
  · simp [Store.loadStaffs, Store.liveStaffs, h]
  · simp [Store.loadStaffs, h, where_staff_key, where_staff_live, where_staff_in, DB.Find, DB.paginate,
      Store.liveStaffs, Store.ModelCustomerStaff, Bool.and_assoc]

theorem loadStaffs_none (store : Store) (e : String) : store.loadStaffs [] e = .ok [] := by
  simp [Store.loadStaffs]

/-! ## The reads by key in closed form -/

theorem compile_customer_key (ID extCorpID : String) :
    Cond.compile (resolveIn Customer.tables)
        (.and (.eq "id" (.str ID)) (.eq "ext_corp_id" (.str extCorpID))) =
      .ok (fun c => some (decide (c.ID = ID) && decide (c.ExtCorpID = extCorpID))) := by
  have : Cond.compile (resolveIn Customer.tables)
        (.and (.eq "id" (.str ID)) (.eq "ext_corp_id" (.str extCorpID))) =
      .ok (fun c => and3
        (if Val.str c.ID = .null ∨ Val.str ID = .null then none
          else some (decide (Val.str c.ID = .str ID)))
        (if Val.str c.ExtCorpID = .null ∨ Val.str extCorpID = .null then none
          else some (decide (Val.str c.ExtCorpID = .str extCorpID)))) := rfl
  rw [this]; congr 1; funext c
  by_cases h1 : c.ID = ID <;> by_cases h2 : c.ExtCorpID = extCorpID <;> simp [and3, h1, h2]

theorem compile_customer_ext_id (e : String) :
    Cond.compile (resolveIn Customer.tables) (.eq "ext_id" (.str e)) =
      .ok (fun c => some (decide (c.ExtID = e))) := by
  have : Cond.compile (resolveIn Customer.tables) (.eq "ext_id" (.str e)) =
      .ok (fun c => if Val.str c.ExtID = .null ∨ Val.str e = .null then none
        else some (decide (Val.str c.ExtID = .str e))) := rfl
  rw [this]; simp

theorem where_customer_key (db : DB Customer) (h : db.tables = Customer.tables)
    (ID extCorpID : String) :
    db.Where (.and (.eq "id" (.str ID)) (.eq "ext_corp_id" (.str extCorpID))) =
      db.restrict fun c => decide (c.ID = ID) && decide (c.ExtCorpID = extCorpID) :=
  DB.Where_ok db _ _ _ h (compile_customer_key ID extCorpID)

theorem where_customer_ext_id (db : DB Customer) (h : db.tables = Customer.tables) (e : String) :
    db.Where (.eq "ext_id" (.str e)) = db.restrict fun c => c.ExtID = e :=
  DB.Where_ok db _ _ _ h (compile_customer_ext_id e)

/-- In a list without two elements of the same key, the elements with the key of
a member are that member alone. -/
theorem filter_key_eq_singleton {α β : Type} [DecidableEq β] (f : α → β) :
    ∀ (l : List α) (c : α), (l.map f).Nodup → c ∈ l →
      l.filter (fun x => decide (f x = f c)) = [c]
  | [], _, _, h => by simp at h
  | x :: l, c, hnd, h => by
    rw [List.map_cons, List.nodup_cons] at hnd
    rcases List.mem_cons.1 h with rfl | hc
    · have : l.filter (fun x => decide (f x = f c)) = [] := by
        rw [List.filter_eq_nil_iff]
        intro y hy; simp only [decide_eq_true_eq]
        intro hfy; exact hnd.1 (hfy ▸ List.mem_map_of_mem f hy)
      simp [List.filter_cons, this]
    · have hx : f x ≠ f c := fun hfx => hnd.1 (hfx ▸ List.mem_map_of_mem f hc)
      simp [List.filter_cons, hx, filter_key_eq_singleton f l c hnd.2 hc]

/-- The method `Get` in closed form. -/
theorem Get_eq (store : Store) (ID extCorpID : String) (w : Bool) :
    Customer.Get store ID extCorpID w =
      match store.customer.filter
          (fun c => decide (c.ID = ID) && decide (c.ExtCorpID = extCorpID)) with
      | [] => ({}, none)
      | row :: _ =>
        ({ row with
            Staffs := if w then store.liveStaffs row.ExtID fun _ => true else [] }, none) := by
  unfold Customer.Get
  simp only [where_customer_key _ (Store.Model_tables store)]
  cases w
  · simp only [Store.FindCustomer, DB.Find, DB.paginate, Store.Model, DB.restrict]
    cases store.customer.filter
      (fun c => decide (c.ID = ID) && decide (c.ExtCorpID = extCorpID)) <;>
      simp [loadStaffs_none]
  · simp only [Store.FindCustomer, DB.Find, DB.paginate, Store.Model, DB.restrict, DB.Preload]
    cases store.customer.filter
      (fun c => decide (c.ID = ID) && decide (c.ExtCorpID = extCorpID)) <;>
      simp [loadStaffs_all]

/-- The method `GetByExtID` in closed form. -/
theorem GetByExtID_eq (store : Store) (e : String) (ids : Option (List String)) (w : Bool) :
    Customer.GetByExtID store e ids w =
      match store.customer.filter (fun c => decide (c.ExtID = e)) with
      | [] => ({}, some (.wrap .recordNotFound "Get customer by id failed"))
      | row :: _ =>
        ({ row with
            Staffs := if w then store.liveStaffs row.ExtID
              (fun s => match ids with
                | none => true
                | some ids => decide (s.ExtStaffID ∈ ids)) else [] }, none) := by
  unfold Customer.GetByExtID
  cases w
  · simp only [Bool.false_eq_true, if_false]
    rw [where_customer_ext_id _ (Store.Model_tables store)]
    simp only [Store.FirstCustomer, DB.First, Store.Model, DB.restrict]
    cases store.customer.filter (fun c => decide (c.ExtID = e)) <;> simp [loadStaffs_none]
  · cases ids with
    | none =>
      simp only [if_true, DB.Preload, Store.FirstCustomer, DB.First]
      rw [where_customer_ext_id _ rfl]
      simp only [Store.Model, DB.restrict]
      cases store.customer.filter (fun c => decide (c.ExtID = e)) <;> simp [loadStaffs_all]
    | some ids =>
      simp only [if_true, DB.Preload, Store.FirstCustomer, DB.First]
      rw [where_customer_ext_id _ rfl]
      simp only [Store.Model, DB.restrict]
      cases store.customer.filter (fun c => decide (c.ExtID = e)) <;> simp [loadStaffs_in]

/-! ## The claims on the create hook and on the reads by key -/

/-- The hook `BeforeCreate` in closed form. -/
theorem BeforeCreate_eq (o : Customer) :
    o.BeforeCreate.1 =
      { o with
        Name := if o.Name = "" then "未知" else o.Name
        Avatar := if o.Avatar = "" then
          "https://openscrm.oss-cn-hangzhou.aliyuncs.com/public/avatar.svg" else o.Avatar } := by
  unfold Customer.BeforeCreate
  by_cases h1 : o.Avatar = "" <;> by_cases h2 : o.Name = "" <;> simp [h1, h2]

/-- C2: `BeforeCreate` returns no error; it replaces an empty name by "未知" and
an empty avatar by the default avatar URL, and leaves a non-empty name or avatar
and every other field as they were. -/
theorem C2_BeforeCreate_defaults (o : Customer) :
    o.BeforeCreate.2 = none ∧
    o.BeforeCreate.1 =
      { o with
        Name := if o.Name = "" then "未知" else o.Name
        Avatar := if o.Avatar = "" then
          "https://openscrm.oss-cn-hangzhou.aliyuncs.com/public/avatar.svg" else o.Avatar } :=
  ⟨rfl, BeforeCreate_eq o⟩

/-- C7: when no row matches the key, `Get` returns the zero-value record with a
nil error while `GetByExtID` returns a wrapped record-not-found error; when a
row matches (the key being unique), both return that row, its relations loaded
as requested, with a nil error. -/
theorem C7_not_found_semantics (store : Store) (ID extCorpID ExtCustomerID : String)
    (extStaffIDs : Option (List String)) (w : Bool) :
    ((∀ c ∈ store.customer, ¬(c.ID = ID ∧ c.ExtCorpID = extCorpID)) →
      Customer.Get store ID extCorpID w = ({}, none)) ∧
    ((∀ c ∈ store.customer, c.ExtID ≠ ExtCustomerID) →
      Customer.GetByExtID store ExtCustomerID extStaffIDs w =
        ({}, some (.wrap .recordNotFound "Get customer by id failed"))) ∧
    (∀ c ∈ store.customer, c.ID = ID → c.ExtCorpID = extCorpID → store.UniqueID →
      ∃ staffs, Customer.Get store ID extCorpID w = ({ c with Staffs := staffs }, none)) ∧
    (∀ c ∈ store.customer, c.ExtID = ExtCustomerID → store.UniqueExtID →
      ∃ staffs, Customer.GetByExtID store ExtCustomerID extStaffIDs w =
        ({ c with Staffs := staffs }, none)) := by
  refine ⟨?_, ?_, ?_, ?_⟩
  · intro h
    have : store.customer.filter
        (fun c => decide (c.ID = ID) && decide (c.ExtCorpID = extCorpID)) = [] := by
      rw [List.filter_eq_nil_iff]
      intro c hc; simpa using h c hc
    rw [Get_eq, this]
  · intro h
    have : store.customer.filter (fun c => decide (c.ExtID = ExtCustomerID)) = [] := by
      rw [List.filter_eq_nil_iff]
      intro c hc; simpa using h c hc
    rw [GetByExtID_eq, this]
  · intro c hc h1 h2 hu
    have h := filter_key_eq_singleton (fun c : Customer => c.ID) store.customer c hu hc
    have : store.customer.filter
        (fun c => decide (c.ID = ID) && decide (c.ExtCorpID = extCorpID)) = [c] := by
      have e : (fun x : Customer => decide (x.ID = ID) && decide (x.ExtCorpID = extCorpID)) =
          fun x => decide (x.ExtCorpID = extCorpID) && decide (x.ID = c.ID) := by
        funext x; rw [h1, Bool.and_comm]
      have h' : store.customer.filter (fun x => decide (x.ID = c.ID)) = [c] := h
      rw [e, ← List.filter_filter, h']
      simp [h2]
    rw [Get_eq, this]
    exact ⟨_, rfl⟩
  · intro c hc h1 hu
    have h : store.customer.filter (fun x => decide (x.ExtID = c.ExtID)) = [c] :=
      filter_key_eq_singleton (fun c : Customer => c.ExtID) store.customer c hu hc
    rw [GetByExtID_eq, ← h1, h]
    exact ⟨_, rfl⟩

/-- C7, at a concrete store: a key without a row, and the key of the first
customer. -/
theorem C7_not_found_semantics_witness :
    Customer.Get sampleStore "9" "corp" true = ({}, none) ∧
    Customer.GetByExtID sampleStore "e9" none true =
      ({}, some (.wrap .recordNotFound "Get customer by id failed")) ∧
    (∃ staffs, Customer.Get sampleStore "1" "corp" true =
      ({ ID := "1", ExtCorpID := "corp", ExtID := "e1", Name := "Ann", Gender := 1,
         Staffs := staffs }, none)) ∧
    (∃ staffs, Customer.GetByExtID sampleStore "e1" none true =
      ({ ID := "1", ExtCorpID := "corp", ExtID := "e1", Name := "Ann", Gender := 1,
         Staffs := staffs }, none)) :=
  ⟨(C7_not_found_semantics sampleStore "9" "corp" "e9" none true).1 (by decide),
   (C7_not_found_semantics sampleStore "9" "corp" "e9" none true).2.1 (by decide),
   (C7_not_found_semantics sampleStore "1" "corp" "e1" none true).2.2.1
     { ID := "1", ExtCorpID := "corp", ExtID := "e1", Name := "Ann", Gender := 1 }
     (by decide) rfl rfl (by decide),
   (C7_not_found_semantics sampleStore "1" "corp" "e1" none true).2.2.2
     { ID := "1", ExtCorpID := "corp", ExtID := "e1", Name := "Ann", Gender := 1 }
     (by decide) rfl (by decide)⟩

/-- C10 fails as stated: without a filter `GetByExtID` leaves out the
soft-deleted relation `11` of customer `e1`, and for a customer with the empty
external ID it loads no relation at all. -/
theorem C10_counterexample :
    (∃ s ∈ sampleStore.customer_staff, s.ExtCustomerID = "e1" ∧
      s.ID ∉ (Customer.GetByExtID sampleStore "e1" none true).1.Staffs.map (·.ID)) ∧
    (∃ s ∈ zeroKeyStore.customer_staff, s.ExtCustomerID = "" ∧
      s.ID ∉ (Customer.GetByExtID zeroKeyStore "" none true).1.Staffs.map (·.ID)) := by
  decide

/-- C10, amended: for a customer with a non-empty external ID (unique in the
store), `GetByExtID` with relations requested returns the customer with exactly
those of its staff relations that are not soft-deleted and, when a filter is
supplied, whose staff ID is in the filter, each with its tags; with relations
not requested it returns the customer with no relations loaded. -/
theorem C10_GetByExtID_relations (store : Store) (c : Customer) (ids : List String)
    (hc : c ∈ store.customer) (hu : store.UniqueExtID) (he : c.ExtID ≠ "") :
    Customer.GetByExtID store c.ExtID (some ids) true =
      ({ c with
          Staffs := (store.customer_staff.filter fun s =>
            s.ExtCustomerID = c.ExtID ∧ s.ExtStaffID ∈ ids ∧ s.DeletedAt = none).map
              store.loadTags }, none) ∧
    Customer.GetByExtID store c.ExtID none true =
      ({ c with
          Staffs := (store.customer_staff.filter fun s =>
            s.ExtCustomerID = c.ExtID ∧ s.DeletedAt = none).map store.loadTags }, none) ∧
    ∀ extStaffIDs, Customer.GetByExtID store c.ExtID extStaffIDs false =
      ({ c with Staffs := [] }, none) := by
  have h : store.customer.filter (fun x => decide (x.ExtID = c.ExtID)) = [c] :=
    filter_key_eq_singleton (fun c : Customer => c.ExtID) store.customer c hu hc
  refine ⟨?_, ?_, ?_⟩
  · rw [GetByExtID_eq, h]
    simp [Store.liveStaffs, he]
  · rw [GetByExtID_eq, h]
    simp [Store.liveStaffs, he]
  · intro f
    rw [GetByExtID_eq, h]
    simp

/-- C10, amended, at the first customer of the sample store with the filter
`["s1", "s2"]`. -/
theorem C10_GetByExtID_relations_witness :
    Customer.GetByExtID sampleStore "e1" (some ["s1", "s2"]) true =
      ({ ID := "1", ExtCorpID := "corp", ExtID := "e1", Name := "Ann", Gender := 1,
         Staffs :=
          [ { ID := "10", ExtCorpID := "corp", ExtStaffID := "s1", ExtCustomerID := "e1",
              AddWay := 1,
              CustomerStaffTags :=
                [ { ID := "100", CustomerStaffID := "10", ExtTagID := "t1" } ] } ] },
        none) :=
  (C10_GetByExtID_relations sampleStore
    { ID := "1", ExtCorpID := "corp", ExtID := "e1", Name := "Ann", Gender := 1 } ["s1", "s2"]
    (by decide) (by decide) (by decide)).1

/-! ## The writes in closed form -/

theorem apply_value_name (insert row : Customer) (v : Val) :
    Assignment.apply insert row (.value "name" v) = { row with Name := v.text } := rfl

theorem apply_proposed_name (insert row : Customer) :
    Assignment.apply insert row (.proposed "name") = { row with Name := insert.Name } := rfl

theorem apply_value_position (insert row : Customer) (v : Val) :
    Assignment.apply insert row (.value "position" v) = { row with Position := v.text } := rfl

theorem apply_proposed_position (insert row : Customer) :
    Assignment.apply insert row (.proposed "position") = { row with Position := insert.Position } := rfl

theorem apply_value_corp_name (insert row : Customer) (v : Val) :
    Assignment.apply insert row (.value "corp_name" v) = { row with CorpName := v.text } := rfl

theorem apply_proposed_corp_name (insert row : Customer) :
    Assignment.apply insert row (.proposed "corp_name") = { row with CorpName := insert.CorpName } := rfl

theorem apply_value_avatar (insert row : Customer) (v : Val) :
    Assignment.apply insert row (.value "avatar" v) = { row with Avatar := v.text } := rfl

theorem apply_proposed_avatar (insert row : Customer) :
    Assignment.apply insert row (.proposed "avatar") = { row with Avatar := insert.Avatar } := rfl

theorem apply_value_type (insert row : Customer) (v : Val) :
    Assignment.apply insert row (.value "type" v) = { row with Typ := v.num } := rfl

theorem apply_proposed_type (insert row : Customer) :
    Assignment.apply insert row (.proposed "type") = { row with Typ := insert.Typ } := rfl

theorem apply_value_gender (insert row : Customer) (v : Val) :
    Assignment.apply insert row (.value "gender" v) = { row with Gender := v.num } := rfl

theorem apply_proposed_gender (insert row : Customer) :
    Assignment.apply insert row (.proposed "gender") = { row with Gender := insert.Gender } := rfl

theorem apply_value_unionid (insert row : Customer) (v : Val) :
    Assignment.apply insert row (.value "unionid" v) = { row with Unionid := v.text } := rfl

theorem apply_proposed_unionid (insert row : Customer) :
    Assignment.apply insert row (.proposed "unionid") = { row with Unionid := insert.Unionid } := rfl

theorem apply_value_external_profile (insert row : Customer) (v : Val) :
    Assignment.apply insert row (.value "external_profile" v) = { row with ExternalProfile := v.text } := rfl

theorem apply_proposed_external_profile (insert row : Customer) :
    Assignment.apply insert row (.proposed "external_profile") = { row with ExternalProfile := insert.ExternalProfile } := rfl

theorem upsertClause_update (customer insert row : Customer) :
    (upsertClause customer).DoUpdates.foldl (Assignment.apply insert) row =
      row.overwrite customer := by
  simp only [upsertClause, Assignments, List.map, List.foldl, apply_value_name,
    apply_value_position, apply_value_corp_name, apply_value_avatar, apply_value_type,
    apply_value_gender, apply_value_unionid, apply_value_external_profile, Val.text, Val.num,
    Customer.overwrite]

theorem batchClause_update (insert row : Customer) :
    batchClause.DoUpdates.foldl (Assignment.apply insert) row = row.overwrite insert := by
  simp only [batchClause, AssignmentColumns, List.map, List.foldl, apply_proposed_name,
    apply_proposed_position, apply_proposed_corp_name, apply_proposed_avatar,
    apply_proposed_type, apply_proposed_gender, apply_proposed_unionid,
    apply_proposed_external_profile, Customer.overwrite]

theorem sameKey_id (insert row : Customer) :
    Customer.sameKey "id" insert row = decide (insert.ID = row.ID) := by
  have hc : Customer.column "id" = some fun c => .str c.ID := rfl
  simp [Customer.sameKey, hc]

theorem sameKey_ext_id (insert row : Customer) :
    Customer.sameKey "ext_id" insert row = decide (insert.ExtID = row.ExtID) := by
  have hc : Customer.column "ext_id" = some fun c => .str c.ExtID := rfl
  simp [Customer.sameKey, hc]

/-- The check of the column types, field by field. -/
theorem Fits_iff (c : Customer) :
    c.Fits ↔ c.ExtID.length ≤ 64 ∧ c.Name.length ≤ 255 ∧ c.CorpName.length ≤ 255 ∧
      c.Avatar.length ≤ 255 ∧ (-128 ≤ c.Typ ∧ c.Typ ≤ 127) ∧ (-128 ≤ c.Gender ∧ c.Gender ≤ 127) ∧
      c.Unionid.length ≤ 128 := by
  have h1 : c.holdsColumn "id" = true := rfl
  have h2 : c.holdsColumn "ext_corp_id" = true := rfl
  have h3 : c.holdsColumn "ext_id" = decide (c.ExtID.length ≤ 64) := rfl
  have h4 : c.holdsColumn "name" = decide (c.Name.length ≤ 255) := rfl
  have h5 : c.holdsColumn "position" = true := rfl
  have h6 : c.holdsColumn "corp_name" = decide (c.CorpName.length ≤ 255) := rfl
  have h7 : c.holdsColumn "avatar" = decide (c.Avatar.length ≤ 255) := rfl
  have h8 : c.holdsColumn "type" = (decide (-128 ≤ c.Typ) && decide (c.Typ ≤ 127)) := rfl
  have h9 : c.holdsColumn "gender" = (decide (-128 ≤ c.Gender) && decide (c.Gender ≤ 127)) := rfl
  have h10 : c.holdsColumn "unionid" = decide (c.Unionid.length ≤ 128) := rfl
  have h11 : c.holdsColumn "external_profile" = true := rfl
  have h12 : c.holdsColumn "created_at" = true := rfl
  have h13 : c.holdsColumn "updated_at" = true := rfl
  simp only [Customer.Fits, Customer.misfit, Customer.columns, List.find?_eq_none, List.mem_cons,
    List.mem_singleton, forall_eq_or_imp, forall_eq, h1, h2, h3, h4, h5, h6, h7, h8, h9, h10,
    h11, h12, h13, List.not_mem_nil]
  simp

theorem BeforeCreate_Fits (c : Customer) (h : c.Fits) : c.BeforeCreate.1.Fits := by
  rw [Fits_iff] at h ⊢
  obtain ⟨h1, h2, h3, h4, h5, h6, h7⟩ := h
  rw [BeforeCreate_eq]
  refine ⟨h1, ?_, h3, ?_, h5, h6, h7⟩
  · by_cases hn : c.Name = ""
    · simp only [hn, if_true]; decide
    · simp only [hn, if_false]; exact h2
  · by_cases ha : c.Avatar = ""
    · simp only [ha, if_true]; decide
    · simp only [ha, if_false]; exact h4

theorem proposal_Fits (c : Customer) (now : Nat) (h : c.Fits) : (c.proposal now).Fits := by
  have hb := BeforeCreate_Fits c h
  rw [Fits_iff] at hb ⊢
  exact hb

theorem upsertClause_fits (c : Customer) (h : c.Fits) :
    (upsertClause c).DoUpdates.findSome? Assignment.misfit = none := by
  rw [Fits_iff] at h
  obtain ⟨_, h2, h3, h4, h5, h6, h7⟩ := h
  have t1 : Customer.columnType "name" = .varchar 255 := rfl
  have t2 : Customer.columnType "position" = .free := rfl
  have t3 : Customer.columnType "corp_name" = .varchar 255 := rfl
  have t4 : Customer.columnType "avatar" = .varchar 255 := rfl
  have t5 : Customer.columnType "type" = .tinyint := rfl
  have t6 : Customer.columnType "gender" = .tinyint := rfl
  have t7 : Customer.columnType "unionid" = .varchar 128 := rfl
  have t8 : Customer.columnType "external_profile" = .free := rfl
  simp [upsertClause, Assignments, Assignment.misfit, t1, t2, t3, t4, t5, t6, t7, t8,
    ColumnType.holds, h2, h3, h4, h5, h6, h7]

theorem batchClause_fits : batchClause.DoUpdates.findSome? Assignment.misfit = none := by
  simp [batchClause, AssignmentColumns, Assignment.misfit]

/-- Under a unique key `ext_id`, an update of the first row that `p` selects is
an update of the row with that key, when `p` selects only rows with that key. -/
theorem updateFirst_eq_map (p : Customer → Bool) (f : Customer → Customer) (k : String) :
    ∀ table : List Customer, (table.map (·.ExtID)).Nodup →
      (∀ row ∈ table, p row = true → k = row.ExtID) → (∃ row ∈ table, p row = true) →
      updateFirst p f table = table.map fun row => if k = row.ExtID then f row else row := by
  intro table
  induction table with
  | nil => intro _ _ h; obtain ⟨_, h, _⟩ := h; cases h
  | cons r rs ih =>
    intro hnd hp hex
    rw [List.map_cons, List.nodup_cons] at hnd
    by_cases hr : p r = true
    · have hk : k = r.ExtID := hp r (List.mem_cons_self _ _) hr
      have hrest : rs.map (fun row => if k = row.ExtID then f row else row) = rs := by
        conv_rhs => rw [← List.map_id rs]
        apply List.map_congr_left
        intro x hx
        have : k ≠ x.ExtID := fun h => hnd.1 (List.mem_map.2 ⟨x, hx, by rw [← h, hk]⟩)
        simp [this]
      simp only [updateFirst, hr, if_true, List.map_cons, hk, hrest]
      rw [← hk, hrest]
    · obtain ⟨x, hx, hpx⟩ := hex
      have hxr : x ∈ rs := by
        rcases List.mem_cons.1 hx with h | h
        · exact absurd (h ▸ hpx) hr
        · exact h
      have hkr : k ≠ r.ExtID := by
        intro h
        have hkx := hp x hx hpx
        exact hnd.1 (List.mem_map.2 ⟨x, hxr, by rw [← hkx, h]⟩)
      simp only [updateFirst, hr, List.map_cons, hkr, if_false]
      rw [ih hnd.2 (fun row hrow => hp row (List.mem_cons_of_mem _ hrow)) ⟨x, hxr, hpx⟩]
      simp

/-- One upserted row whose values fit and whose primary key is not that of a
stored row with another external ID, for a table with unique external IDs. -/
theorem insertRow_eq (oc : OnConflict) (upd : Customer → Customer)
    (table : List Customer) (insert : Customer)
    (hfit : insert.Fits) (hass : oc.DoUpdates.findSome? Assignment.misfit = none)
    (hnd : (table.map (·.ExtID)).Nodup)
    (hown : ∀ row ∈ table, row.ID = insert.ID → row.ExtID = insert.ExtID)
    (hupd : ∀ row, oc.DoUpdates.foldl (Assignment.apply insert) row = upd row) :
    insertRow oc table insert = .ok (upsertInto upd table insert) := by
  have hf : insert.misfit = none := hfit
  have hu : (fun row => oc.DoUpdates.foldl (Assignment.apply insert) row) = upd := funext hupd
  unfold insertRow upsertInto
  simp only [hf, hass, hu, Customer.uniqueKeys, List.find?_cons, List.find?_nil]
  by_cases hid : table.any (Customer.sameKey "id" insert) = true
  · obtain ⟨x, hx, hpx⟩ := List.any_eq_true.1 hid
    have hxe : insert.ExtID = x.ExtID := by
      rw [sameKey_id, decide_eq_true_eq] at hpx
      exact (hown x hx hpx.symm).symm
    have hmem : insert.ExtID ∈ table.map (·.ExtID) := List.mem_map.2 ⟨x, hx, hxe.symm⟩
    simp only [hid, if_pos hmem]
    rw [updateFirst_eq_map _ upd insert.ExtID table hnd ?_ ⟨x, hx, hpx⟩]
    intro row hrow hp
    rw [sameKey_id, decide_eq_true_eq] at hp
    exact (hown row hrow hp.symm).symm
  · have hid2 : table.any (Customer.sameKey "id" insert) = false := by simpa using hid
    simp only [hid2]
    by_cases hmem : insert.ExtID ∈ table.map (·.ExtID)
    · obtain ⟨x, hx, hxe⟩ := List.mem_map.1 hmem
      have hpx : Customer.sameKey "ext_id" insert x = true := by
        rw [sameKey_ext_id, decide_eq_true_eq]; exact hxe.symm
      have hany : table.any (Customer.sameKey "ext_id" insert) = true :=
        List.any_eq_true.2 ⟨x, hx, hpx⟩
      simp only [hany, if_pos hmem]
      rw [updateFirst_eq_map _ upd insert.ExtID table hnd ?_ ⟨x, hx, hpx⟩]
      intro row _ hp
      rw [sameKey_ext_id, decide_eq_true_eq] at hp
      exact hp
    · have hany : table.any (Customer.sameKey "ext_id" insert) = false := by
        rw [Bool.eq_false_iff]
        intro h
        obtain ⟨x, hx, hpx⟩ := List.any_eq_true.1 h
        rw [sameKey_ext_id, decide_eq_true_eq] at hpx
        exact hmem (List.mem_map.2 ⟨x, hx, hpx.symm⟩)
      simp only [hany, if_neg hmem]

theorem upsertInto_keys (upd : Customer → Customer) (hupd : ∀ row, (upd row).ExtID = row.ExtID)
    (table : List Customer) (insert : Customer) (h : insert.ExtID ∈ table.map (·.ExtID)) :
    (upsertInto upd table insert).map (·.ExtID) = table.map (·.ExtID) := by
  unfold upsertInto
  rw [if_pos h, List.map_map]
  apply List.map_congr_left
  intro row _
  by_cases hr : insert.ExtID = row.ExtID <;> simp [hr, hupd]

theorem upsertInto_nodup (upd : Customer → Customer) (hupd : ∀ row, (upd row).ExtID = row.ExtID)
    (table : List Customer) (insert : Customer) (hnd : (table.map (·.ExtID)).Nodup) :
    ((upsertInto upd table insert).map (·.ExtID)).Nodup := by
  by_cases h : insert.ExtID ∈ table.map (·.ExtID)
  · rw [upsertInto_keys upd hupd table insert h]; exact hnd
  · unfold upsertInto
    rw [if_neg h, List.map_append, List.nodup_append]
    refine ⟨hnd, by simp, ?_⟩
    intro a ha hb
    simp only [List.map_cons, List.map_nil, List.mem_singleton] at hb
    exact h (hb ▸ ha)

theorem upsertInto_has (upd : Customer → Customer) (hupd : ∀ row, (upd row).ExtID = row.ExtID)
    (table : List Customer) (insert : Customer) :
    insert.ExtID ∈ (upsertInto upd table insert).map (·.ExtID) := by
  by_cases h : insert.ExtID ∈ table.map (·.ExtID)
  · rw [upsertInto_keys upd hupd table insert h]; exact h
  · unfold upsertInto
    rw [if_neg h]; simp

/-- On a conflict the one row with the key of `insert` is the updated row. -/
theorem upsertInto_hit (upd : Customer → Customer) (hupd : ∀ row, (upd row).ExtID = row.ExtID)
    (table : List Customer) (insert : Customer) (hnd : (table.map (·.ExtID)).Nodup)
    (h : insert.ExtID ∈ table.map (·.ExtID)) :
    ∃ r, (upsertInto upd table insert).filter (fun x => decide (x.ExtID = insert.ExtID)) =
      [upd r] := by
  obtain ⟨r, hr, hre⟩ := List.mem_map.1 h
  refine ⟨r, ?_⟩
  have hf : table.filter (fun x => decide (x.ExtID = insert.ExtID)) = [r] := by
    have := filter_key_eq_singleton (fun c : Customer => c.ExtID) table r hnd hr
    simpa [hre] using this
  unfold upsertInto
  rw [if_pos h, List.filter_map]
  have hcomp : ((fun x : Customer => decide (x.ExtID = insert.ExtID)) ∘
      fun row => if insert.ExtID = row.ExtID then upd row else row) =
      fun x => decide (x.ExtID = insert.ExtID) := by
    funext row
    by_cases hrow : insert.ExtID = row.ExtID
    · simp [hrow, hupd]
    · simp [hrow]
  rw [hcomp, hf]
  simp [hre]

theorem overwrite_ExtID (row src : Customer) : (row.overwrite src).ExtID = row.ExtID := rfl

theorem overwrite_sameFields (row src : Customer) : (row.overwrite src).sameFields src :=
  ⟨rfl, rfl, rfl, rfl, rfl, rfl, rfl, rfl⟩

theorem BeforeCreate_ExtID (c : Customer) : c.BeforeCreate.1.ExtID = c.ExtID := by
  rw [BeforeCreate_eq]

theorem BeforeCreate_ID (c : Customer) : c.BeforeCreate.1.ID = c.ID := by
  rw [BeforeCreate_eq]

theorem proposal_ExtID (c : Customer) (now : Nat) : (c.proposal now).ExtID = c.ExtID := by
  unfold Customer.proposal; exact BeforeCreate_ExtID c

theorem proposal_ID (c : Customer) (now : Nat) : (c.proposal now).ID = c.ID := by
  unfold Customer.proposal; exact BeforeCreate_ID c

theorem overwrite_proposal_sameFields (row c : Customer) (now : Nat) :
    (row.overwrite (c.proposal now)).sameFields c.BeforeCreate.1 :=
  ⟨rfl, rfl, rfl, rfl, rfl, rfl, rfl, rfl⟩

/-- An upserted row under the external ID of `c` leaves the primary key of `c`
to rows with that external ID. -/
theorem upsertInto_owns (upd : Customer → Customer)
    (hext : ∀ row, (upd row).ExtID = row.ExtID) (table : List Customer) (p c : Customer)
    (hpc : p.ExtID = c.ExtID) (h : ∀ row ∈ table, row.ID = c.ID → row.ExtID = c.ExtID) :
    ∀ row ∈ upsertInto upd table p, row.ID = c.ID → row.ExtID = c.ExtID := by
  intro row hrow hrid
  unfold upsertInto at hrow
  split at hrow
  · obtain ⟨x, hx, hxe⟩ := List.mem_map.1 hrow
    by_cases hk : p.ExtID = x.ExtID
    · rw [if_pos hk] at hxe
      rw [← hxe, hext, ← hk, hpc]
    · rw [if_neg hk] at hxe
      exact h row (hxe ▸ hx) hrid
  · rcases List.mem_append.1 hrow with hx | hx
    · exact h row hx hrid
    · rw [List.mem_singleton.1 hx, hpc]

theorem Create_one (store : Store) (now : Nat) (oc : OnConflict) (value : Customer)
    (table : List Customer) (h : insertRow oc store.customer (value.proposal now) = .ok table) :
    store.Create now oc [value] = ({ store with customer := table }, none) := by
  have hr : insertRows oc now store.customer [value] =
      match insertRow oc store.customer (value.proposal now) with
      | .error e => .error e
      | .ok table => .ok table := rfl
  unfold Store.Create
  rw [hr, h]

theorem Create_two (store : Store) (now : Nat) (oc : OnConflict) (v1 v2 : Customer)
    (t1 t2 : List Customer) (h1 : insertRow oc store.customer (v1.proposal now) = .ok t1)
    (h2 : insertRow oc t1 (v2.proposal now) = .ok t2) :
    store.Create now oc [v1, v2] = ({ store with customer := t2 }, none) := by
  have hr : insertRows oc now store.customer [v1, v2] =
      match insertRow oc store.customer (v1.proposal now) with
      | .error e => .error e
      | .ok table =>
        match insertRow oc table (v2.proposal now) with
        | .error e => .error e
        | .ok table => .ok table := rfl
  unfold Store.Create
  rw [hr, h1]
  simp only [h2]

theorem Upsert_eq (store : Store) (now : Nat) (customer : Customer)
    (hf : customer.Fits) (hu : store.UniqueExtID) (ho : store.OwnsID customer) :
    Customer.Upsert store now customer =
      ({ store with
          customer := upsertInto (fun row => row.overwrite customer) store.customer
            (customer.proposal now) }, none) := by
  have h : Customer.Upsert store now customer =
      store.Create now (upsertClause customer) [customer] := rfl
  rw [h]
  apply Create_one
  apply insertRow_eq (upsertClause customer) (fun row => row.overwrite customer) _ _
    (proposal_Fits customer now hf) (upsertClause_fits customer hf) hu _
    (upsertClause_update customer _)
  intro row hrow hid
  rw [proposal_ExtID]
  rw [proposal_ID] at hid
  exact ho row hrow hid

theorem BatchUpsert_Create (store : Store) (now : Nat) (customers : List Customer)
    (hl : 0 < customers.length) (hl2 : customers.length ≤ 100) (st : Store)
    (h : store.Create now batchClause customers = (st, none)) :
    Customer.BatchUpsert store now customers = (st, none) := by
  have hb : batches customers 100 = [customers] := by
    have hq : (customers.length + 99) / 100 = 1 := by omega
    simp [batches, hq, List.range_succ, List.take_of_length_le hl2]
  have hc : Customer.BatchUpsert store now customers =
      store.CreateInBatches now batchClause customers 100 := rfl
  rw [hc]
  unfold Store.CreateInBatches
  rw [hb]
  simp only [List.foldl, h]

theorem BatchUpsert_one (store : Store) (now : Nat) (customer : Customer)
    (hf : customer.Fits) (hu : store.UniqueExtID) (ho : store.OwnsID customer) :
    Customer.BatchUpsert store now [customer] =
      ({ store with
          customer := upsertInto (fun row => row.overwrite (customer.proposal now))
            store.customer (customer.proposal now) }, none) := by
  apply BatchUpsert_Create store now [customer] (by simp) (by simp)
  apply Create_one
  apply insertRow_eq batchClause (fun row => row.overwrite (customer.proposal now)) _ _
    (proposal_Fits customer now hf) batchClause_fits hu _ (batchClause_update _)
  intro row hrow hid
  rw [proposal_ExtID]
  rw [proposal_ID] at hid
  exact ho row hrow hid

theorem BatchUpsert_two (store : Store) (now : Nat) (c1 c2 : Customer)
    (h : c1.ExtID = c2.ExtID) (hf1 : c1.Fits) (hf2 : c2.Fits) (hu : store.UniqueExtID)
    (ho1 : store.OwnsID c1) (ho2 : store.OwnsID c2) :
    Customer.BatchUpsert store now [c1, c2] =
      ({ store with
          customer := upsertInto (fun row => row.overwrite (c2.proposal now))
            (upsertInto (fun row => row.overwrite (c1.proposal now))
            store.customer (c1.proposal now)) (c2.proposal now) }, none) := by
  apply BatchUpsert_Create store now [c1, c2] (by simp) (by simp)
  apply Create_two store now batchClause c1 c2
    (upsertInto (fun row => row.overwrite (c1.proposal now)) store.customer (c1.proposal now))
  · apply insertRow_eq batchClause (fun row => row.overwrite (c1.proposal now)) _ _
      (proposal_Fits c1 now hf1) batchClause_fits hu _ (batchClause_update _)
    intro row hrow hid
    rw [proposal_ExtID]
    rw [proposal_ID] at hid
    exact ho1 row hrow hid
  · apply insertRow_eq batchClause (fun row => row.overwrite (c2.proposal now))
      (upsertInto (fun row => row.overwrite (c1.proposal now)) store.customer (c1.proposal now))
      (c2.proposal now) (proposal_Fits c2 now hf2) batchClause_fits
      (upsertInto_nodup (fun row => row.overwrite (c1.proposal now)) (fun _ => rfl)
        store.customer (c1.proposal now) hu) _ (batchClause_update _)
    intro row hrow hid
    rw [proposal_ExtID]
    rw [proposal_ID] at hid
    exact upsertInto_owns (fun row => row.overwrite (c1.proposal now)) (fun _ => rfl)
      store.customer (c1.proposal now) c2
      (by rw [proposal_ExtID, h]) ho2 row hrow hid

/-- The second of two upserts under one key leaves one row under that key: the
updated one. -/
theorem upsert_twice (upd₁ upd₂ : Customer → Customer)
    (h₁ : ∀ row, (upd₁ row).ExtID = row.ExtID) (h₂ : ∀ row, (upd₂ row).ExtID = row.ExtID)
    (table : List Customer) (p₁ p₂ : Customer) (hk : p₁.ExtID = p₂.ExtID)
    (hnd : (table.map (·.ExtID)).Nodup) :
    ∃ r, (upsertInto upd₂ (upsertInto upd₁ table p₁) p₂).filter
      (fun x => decide (x.ExtID = p₂.ExtID)) = [upd₂ r] :=
  upsertInto_hit upd₂ h₂ _ p₂ (upsertInto_nodup upd₁ h₁ table p₁ hnd)
    (hk ▸ upsertInto_has upd₁ h₁ table p₁)

/-- The store after a write of a row under the external ID of `c`: the external
IDs stay unique and the primary key of `c` stays with that external ID. -/
theorem upsertInto_store (store : Store) (upd : Customer → Customer)
    (hext : ∀ row, (upd row).ExtID = row.ExtID)
    (p c : Customer) (hpc : p.ExtID = c.ExtID) (hu : store.UniqueExtID) (ho : store.OwnsID c) :
    Store.UniqueExtID { store with customer := upsertInto upd store.customer p } ∧
      Store.OwnsID { store with customer := upsertInto upd store.customer p } c :=
  ⟨upsertInto_nodup upd hext _ _ hu, upsertInto_owns upd hext _ p c hpc ho⟩

/-- C1, amended: for a store with unique external IDs and two customers with
the same external ID, whose values fit the declared column types and whose
primary keys are not those of stored rows with another external ID, writing the
first and then the second succeeds and leaves exactly one customer row with
that external ID and the staff-relation rows as they were.  After `Upsert` the
name, position, corp name, avatar, type, gender, union id and external profile
of that row are those of the second customer; after `BatchUpsert`, in two calls
or in one, they are those of the second customer after the create defaults. -/
theorem C1_upsert_twice (store : Store) (now₁ now₂ : Nat) (c1 c2 : Customer)
    (h : c1.ExtID = c2.ExtID) (hu : store.UniqueExtID)
    (ho1 : store.OwnsID c1) (ho2 : store.OwnsID c2) (hf1 : c1.Fits) (hf2 : c2.Fits) :
    ((Customer.Upsert store now₁ c1).2 = none ∧
      (Customer.Upsert (Customer.Upsert store now₁ c1).1 now₂ c2).2 = none ∧
      (Customer.Upsert (Customer.Upsert store now₁ c1).1 now₂ c2).1.HoldsOnce c2 ∧
      (Customer.Upsert (Customer.Upsert store now₁ c1).1 now₂ c2).1.customer_staff =
        store.customer_staff) ∧
    ((Customer.BatchUpsert store now₁ [c1]).2 = none ∧
      (Customer.BatchUpsert (Customer.BatchUpsert store now₁ [c1]).1 now₂ [c2]).2 = none ∧
      (Customer.BatchUpsert (Customer.BatchUpsert store now₁ [c1]).1 now₂ [c2]).1.HoldsOnce
        c2.BeforeCreate.1 ∧
      (Customer.BatchUpsert (Customer.BatchUpsert store now₁ [c1]).1 now₂ [c2]).1.customer_staff =
        store.customer_staff) ∧
    ((Customer.BatchUpsert store now₁ [c1, c2]).2 = none ∧
      (Customer.BatchUpsert store now₁ [c1, c2]).1.HoldsOnce c2.BeforeCreate.1 ∧
      (Customer.BatchUpsert store now₁ [c1, c2]).1.customer_staff = store.customer_staff) := by
  have hk : ∀ n₁ n₂, (c1.proposal n₁).ExtID = (c2.proposal n₂).ExtID := by
    intro n₁ n₂; rw [proposal_ExtID, proposal_ExtID, h]
  have hk1 : ∀ n₁, (c1.proposal n₁).ExtID = c2.ExtID := by
    intro n₁; rw [proposal_ExtID, h]
  refine ⟨?_, ?_, ?_⟩
  · have hs := upsertInto_store store (fun row => row.overwrite c1) (fun _ => rfl)
      (c1.proposal now₁) c2 (hk1 now₁) hu ho2
    rw [Upsert_eq store now₁ c1 hf1 hu ho1]
    rw [Upsert_eq _ now₂ c2 hf2 hs.1 hs.2]
    refine ⟨rfl, rfl, ?_, rfl⟩
    obtain ⟨r, hr⟩ := upsert_twice (fun row => row.overwrite c1)
      (fun row => row.overwrite c2) (fun _ => rfl) (fun _ => rfl)
      store.customer _ _ (hk now₁ now₂) hu
    refine ⟨r.overwrite c2, ?_, overwrite_sameFields r c2⟩
    rw [← proposal_ExtID c2 now₂]; exact hr
  · have hs := upsertInto_store store (fun row => row.overwrite (c1.proposal now₁))
      (fun _ => rfl) (c1.proposal now₁) c2 (hk1 now₁) hu ho2
    rw [BatchUpsert_one store now₁ c1 hf1 hu ho1]
    rw [BatchUpsert_one _ now₂ c2 hf2 hs.1 hs.2]
    refine ⟨rfl, rfl, ?_, rfl⟩
    obtain ⟨r, hr⟩ := upsert_twice (fun row => row.overwrite (c1.proposal now₁))
      (fun row => row.overwrite (c2.proposal now₂)) (fun _ => rfl) (fun _ => rfl)
      store.customer _ _ (hk now₁ now₂) hu
    refine ⟨_, ?_, overwrite_proposal_sameFields r c2 now₂⟩
    rw [BeforeCreate_ExtID, ← proposal_ExtID c2 now₂]; exact hr
  · rw [BatchUpsert_two store now₁ c1 c2 h hf1 hf2 hu ho1 ho2]
    refine ⟨rfl, ?_, rfl⟩
    obtain ⟨r, hr⟩ := upsert_twice (fun row => row.overwrite (c1.proposal now₁))
      (fun row => row.overwrite (c2.proposal now₁)) (fun _ => rfl) (fun _ => rfl)
      store.customer _ _ (hk now₁ now₁) hu
    refine ⟨_, ?_, overwrite_proposal_sameFields r c2 now₁⟩
    rw [BeforeCreate_ExtID, ← proposal_ExtID c2 now₁]; exact hr

/-- C1 fails as stated, in three ways.  After `BatchUpsert` of `firstWrite` and
then of `secondWrite`, whose name is empty, the one row under the key `e1`
carries the name "未知", not the name of the second write.  After two `Upsert`s
of `takenKeyWrite` into the sample store, no row carries its external ID `e9`:
the writes went to the stored row `e1`, which has the same primary key.  Two
`Upsert`s of `wideGenderWrite` into the empty store fail on the column `gender`
and leave the store empty. -/
theorem C1_counterexample :
    (secondWrite.Name = "" ∧
      ((Customer.BatchUpsert (Customer.BatchUpsert {} 1 [firstWrite]).1 2
        [secondWrite]).1.customer.filter (fun r => decide (r.ExtID = "e1"))).map (·.Name) =
          ["未知"]) ∧
    (Customer.Upsert (Customer.Upsert sampleStore 1 takenKeyWrite).1 2
        takenKeyWrite).1.customer.map (fun r => (r.ID, r.ExtID, r.Name)) =
      [("1", "e1", "Zed"), ("2", "e2", "Bob")] ∧
    (Customer.Upsert {} 1 wideGenderWrite = ({}, some (.outOfRange "gender")) ∧
      Customer.Upsert (Customer.Upsert {} 1 wideGenderWrite).1 2 wideGenderWrite =
        ({}, some (.outOfRange "gender"))) := by
  decide

/-- C1, amended, at the sample store for two writes under the key `e1`, the
second with an empty name. -/
theorem C1_upsert_twice_witness :
    (firstWrite.ExtID = secondWrite.ExtID ∧ sampleStore.UniqueExtID ∧
      sampleStore.OwnsID firstWrite ∧ sampleStore.OwnsID secondWrite ∧ firstWrite.Fits ∧
      secondWrite.Fits) ∧
    (Customer.Upsert (Customer.Upsert sampleStore 1 firstWrite).1 2 secondWrite).1.HoldsOnce
      secondWrite ∧
    (Customer.BatchUpsert (Customer.BatchUpsert sampleStore 1 [firstWrite]).1 2
        [secondWrite]).1.HoldsOnce secondWrite.BeforeCreate.1 ∧
    (Customer.BatchUpsert sampleStore 1 [firstWrite, secondWrite]).1.HoldsOnce
      secondWrite.BeforeCreate.1 :=
  ⟨⟨rfl, by decide, by decide, by decide, by decide, by decide⟩,
   (C1_upsert_twice sampleStore 1 2 firstWrite secondWrite rfl (by decide) (by decide)
      (by decide) (by decide) (by decide)).1.2.2.1,
   (C1_upsert_twice sampleStore 1 2 firstWrite secondWrite rfl (by decide) (by decide)
      (by decide) (by decide) (by decide)).2.1.2.2.1,
   (C1_upsert_twice sampleStore 1 2 firstWrite secondWrite rfl (by decide) (by decide)
      (by decide) (by decide) (by decide)).2.2.2.1⟩

/-- C8 at the sample store and a customer under the stored key `e1` with an
empty name and avatar: `Upsert` stores the empty name and avatar, `BatchUpsert`
of the one-element batch stores the defaults. -/
theorem C8_upsert_differs_from_batch :
    (Customer.Upsert sampleStore 1 { ExtID := "e1" }).1.customer.map
        (fun r => (r.ExtID, r.Name, r.Avatar)) =
      [("e1", "", ""), ("e2", "Bob", "")] ∧
    (Customer.BatchUpsert sampleStore 1 [{ ExtID := "e1" }]).1.customer.map
        (fun r => (r.ExtID, r.Name, r.Avatar)) =
      [("e1", "未知", "https://openscrm.oss-cn-hangzhou.aliyuncs.com/public/avatar.svg"),
        ("e2", "Bob", "")] ∧
    (Customer.Upsert sampleStore 1 { ExtID := "e1" }).1 ≠
      (Customer.BatchUpsert sampleStore 1 [{ ExtID := "e1" }]).1 := by
  decide

/-! ## The method `Query` in closed form -/

theorem DB.Where_ok3 {ρ : Type} (db : DB ρ) (T : List (TableRef ρ)) (cond : Cond)
    (q : ρ → Option Bool) (p : ρ → Bool) (hT : db.tables = T)
    (h : cond.compile (resolveIn T) = .ok q) (hp : ∀ r, (q r = some true) ↔ p r = true) :
    db.Where cond = db.restrict p := by
  unfold DB.Where DB.restrict; rw [hT, h]
  simp only
  congr 1
  apply List.filter_congr
  intro r _
  rw [Bool.eq_iff_iff]; simp [hp]

theorem where_j_corp (db : DB JoinRow) (h : db.tables = JoinRow.tables) (corp : String) :
    db.Where (.or (.eq "customer.ext_corp_id" (.str corp)) (.eq "cs.ext_corp_id" (.str corp))) =
      db.restrict fun r =>
        decide (r.customer.ExtCorpID = corp) || r.cs.any fun s => s.ExtCorpID = corp := by
  refine DB.Where_ok3 db _ _ (fun r => or3
    (if Val.str r.customer.ExtCorpID = .null ∨ Val.str corp = .null then none
      else some (decide (Val.str r.customer.ExtCorpID = .str corp)))
    (if orNull r.cs (fun s => .str s.ExtCorpID) = .null ∨ Val.str corp = .null then none
      else some (decide (orNull r.cs (fun s => .str s.ExtCorpID) = .str corp)))) _ h rfl ?_
  rintro ⟨c, cs, cst⟩
  cases cs with
  | none => by_cases h1 : c.ExtCorpID = corp <;> simp [or3, orNull, h1]
  | some s =>
    by_cases h1 : c.ExtCorpID = corp <;> by_cases h2 : s.ExtCorpID = corp <;>
      simp [or3, orNull, h1, h2]

theorem where_j_name (db : DB JoinRow) (h : db.tables = JoinRow.tables) (pat : String) :
    db.Where (.like "customer.name" pat) = db.restrict fun r => sqlLike r.customer.Name pat := by
  refine DB.Where_ok3 db _ _ (fun r => some (sqlLike r.customer.Name pat)) _ h rfl ?_
  intro r; simp

theorem where_j_gender (db : DB JoinRow) (h : db.tables = JoinRow.tables) (g : Int) :
    db.Where (.eq "customer.gender" (.int g)) = db.restrict fun r => r.customer.Gender = g := by
  refine DB.Where_ok3 db _ _ (fun r =>
    if Val.int r.customer.Gender = .null ∨ Val.int g = .null then none
      else some (decide (Val.int r.customer.Gender = .int g))) _ h rfl ?_
  intro r; simp

theorem where_j_type (db : DB JoinRow) (h : db.tables = JoinRow.tables) (g : Int) :
    db.Where (.eq "customer.type" (.int g)) = db.restrict fun r => r.customer.Typ = g := by
  refine DB.Where_ok3 db _ _ (fun r =>
    if Val.int r.customer.Typ = .null ∨ Val.int g = .null then none
      else some (decide (Val.int r.customer.Typ = .int g))) _ h rfl ?_
  intro r; simp

theorem where_j_staff (db : DB JoinRow) (h : db.tables = JoinRow.tables) (ids : List String) :
    db.Where (.inList "cs.ext_staff_id" (ids.map .str)) =
      db.restrict fun r => r.cs.any fun s => s.ExtStaffID ∈ ids := by
  refine DB.Where_ok3 db _ _ (fun r =>
    if orNull r.cs (fun s => .str s.ExtStaffID) = .null then none
      else some (decide (orNull r.cs (fun s => .str s.ExtStaffID) ∈ ids.map Val.str))) _ h rfl ?_
  rintro ⟨c, cs, cst⟩
  cases cs <;> simp [orNull]

theorem where_j_time (db : DB JoinRow) (h : db.tables = JoinRow.tables) (lo hi : String) :
    db.Where (.between "cs.createtime" (.str lo) (.str hi)) =
      db.restrict fun r => r.cs.any fun s =>
        leChars lo.data s.Createtime.data && leChars s.Createtime.data hi.data := by
  refine DB.Where_ok3 db _ _ (fun r =>
    and3 (Val.le (.str lo) (orNull r.cs (fun s => .str s.Createtime)))
      (Val.le (orNull r.cs (fun s => .str s.Createtime)) (.str hi))) _ h rfl ?_
  rintro ⟨c, cs, cst⟩
  cases cs with
  | none => simp [orNull, Val.le, and3]
  | some s =>
    cases h1 : leChars lo.data s.Createtime.data <;>
      cases h2 : leChars s.Createtime.data hi.data <;> simp [orNull, Val.le, and3, h1, h2]

theorem where_j_tag (db : DB JoinRow) (h : db.tables = JoinRow.tables) (ids : List String) :
    db.Where (.inList "cst.ext_tag_id" (ids.map .str)) =
      db.restrict fun r => r.cst.any fun t => t.ExtTagID ∈ ids := by
  refine DB.Where_ok3 db _ _ (fun r =>
    if orNull r.cst (fun t => .str t.ExtTagID) = .null then none
      else some (decide (orNull r.cst (fun t => .str t.ExtTagID) ∈ ids.map Val.str))) _ h rfl ?_
  rintro ⟨c, cs, cst⟩
  cases cst <;> simp [orNull]

theorem where_j_channel (db : DB JoinRow) (h : db.tables = JoinRow.tables) (w : Int) :
    db.Where (.eq "cs.add_way" (.int w)) = db.restrict fun r => r.cs.any fun s => s.AddWay = w := by
  refine DB.Where_ok3 db _ _ (fun r =>
    if orNull r.cs (fun s => .int s.AddWay) = .null ∨ Val.int w = .null then none
      else some (decide (orNull r.cs (fun s => .int s.AddWay) = .int w))) _ h rfl ?_
  rintro ⟨c, cs, cst⟩
  cases cs <;> simp [orNull]

theorem where_j_churned (db : DB JoinRow) (h : db.tables = JoinRow.tables) :
    db.Where (.isNotNull "cs.deleted_at") =
      db.restrict fun r => r.cs.any fun s => s.DeletedAt.isSome := by
  refine DB.Where_ok3 db _ _ (fun r =>
    some (decide (orNull r.cs (fun s => Val.ofTime s.DeletedAt) ≠ .null))) _ h rfl ?_
  rintro ⟨c, cs, cst⟩
  cases cs with
  | none => simp [orNull]
  | some s => cases hd : s.DeletedAt <;> simp [orNull, Val.ofTime, hd]

theorem where_j_active (db : DB JoinRow) (h : db.tables = JoinRow.tables) :
    db.Where (.isNull "cs.deleted_at") =
      db.restrict fun r => r.cs.all fun s => s.DeletedAt.isNone := by
  refine DB.Where_ok3 db _ _ (fun r =>
    some (decide (orNull r.cs (fun s => Val.ofTime s.DeletedAt) = .null))) _ h rfl ?_
  rintro ⟨c, cs, cst⟩
  cases cs with
  | none => simp [orNull]
  | some s => cases hd : s.DeletedAt <;> simp [orNull, Val.ofTime, hd]

@[simp] theorem Store.TableCustomer_tables (store : Store) :
    store.TableCustomer.tables = JoinRow.tables := rfl

@[simp] theorem DB.Unscoped_tables {ρ : Type} (db : DB ρ) : db.Unscoped.tables = db.tables := rfl

theorem DB.restrict_true {ρ : Type} (db : DB ρ) : db.restrict (fun _ => true) = db := by
  simp [DB.restrict]

/-- A filter added under a guard restricts by the guarded predicate. -/
theorem ite_restrict {ρ : Type} (db : DB ρ) (c : Prop) [Decidable c] (p : ρ → Bool) :
    (if c then db.restrict p else db) = db.restrict fun r => !decide c || p r := by
  by_cases h : c
  · simp [h]
  · simp [h, DB.restrict_true]

theorem ite_Where {ρ : Type} (db : DB ρ) (c : Prop) [Decidable c] (cond : Cond) (p : ρ → Bool)
    (hw : db.Where cond = db.restrict p) :
    (if c then db.Where cond else db) = db.restrict fun r => !decide c || p r := by
  rw [hw, ite_restrict]

theorem ite_j_name (db : DB JoinRow) (h : db.tables = JoinRow.tables) (c : Prop) [Decidable c]
    (pat : String) :
    (if c then db.Where (.like "customer.name" pat) else db) =
      db.restrict fun r => !decide c || sqlLike r.customer.Name pat :=
  ite_Where db c _ _ (where_j_name db h pat)

theorem ite_j_gender (db : DB JoinRow) (h : db.tables = JoinRow.tables) (c : Prop) [Decidable c]
    (g : Int) :
    (if c then db.Where (.eq "customer.gender" (.int g)) else db) =
      db.restrict fun r => !decide c || decide (r.customer.Gender = g) :=
  ite_Where db c _ _ (where_j_gender db h g)

theorem ite_j_type (db : DB JoinRow) (h : db.tables = JoinRow.tables) (c : Prop) [Decidable c]
    (g : Int) :
    (if c then db.Where (.eq "customer.type" (.int g)) else db) =
      db.restrict fun r => !decide c || decide (r.customer.Typ = g) :=
  ite_Where db c _ _ (where_j_type db h g)

theorem ite_j_staff (db : DB JoinRow) (h : db.tables = JoinRow.tables) (c : Prop) [Decidable c]
    (ids : List String) :
    (if c then db.Where (.inList "cs.ext_staff_id" (ids.map .str)) else db) =
      db.restrict fun r => !decide c || r.cs.any fun s => s.ExtStaffID ∈ ids :=
  ite_Where db c _ _ (where_j_staff db h ids)

theorem ite_j_time (db : DB JoinRow) (h : db.tables = JoinRow.tables) (c : Prop) [Decidable c]
    (lo hi : String) :
    (if c then db.Where (.between "cs.createtime" (.str lo) (.str hi)) else db) =
      db.restrict fun r => !decide c || r.cs.any fun s =>
        leChars lo.data s.Createtime.data && leChars s.Createtime.data hi.data :=
  ite_Where db c _ _ (where_j_time db h lo hi)

theorem ite_j_tag (db : DB JoinRow) (h : db.tables = JoinRow.tables) (c : Prop) [Decidable c]
    (ids : List String) :
    (if c then db.Where (.inList "cst.ext_tag_id" (ids.map .str)) else db) =
      db.restrict fun r => !decide c || r.cst.any fun t => t.ExtTagID ∈ ids :=
  ite_Where db c _ _ (where_j_tag db h ids)

theorem ite_j_channel (db : DB JoinRow) (h : db.tables = JoinRow.tables) (c : Prop)
    [Decidable c] (w : Int) :
    (if c then db.Where (.eq "cs.add_way" (.int w)) else db) =
      db.restrict fun r => !decide c || r.cs.any fun s => s.AddWay = w :=
  ite_Where db c _ _ (where_j_channel db h w)

theorem DB.restrict_Unscoped {ρ : Type} (db : DB ρ) (P : ρ → Bool) :
    (db.restrict P).Unscoped = db.Unscoped.restrict P := rfl

/-- The joined statement of `Query` holds the joined rows that pass the filters
of the request. -/
theorem Query_db_eq (store : Store) (req : QueryCustomerReq) (corp : String) :
    Customer.Query.db store req corp =
      { tables := JoinRow.tables
        rows := store.customerJoin.filter (JoinRow.passes req corp)
        unscoped := decide (req.OutFlowStatus = 1) } := by
  unfold Customer.Query.db
  simp only [where_j_corp, ite_j_name, ite_j_gender, ite_j_type, ite_j_staff,
    ite_j_time, ite_j_tag, ite_j_channel,
    DB.restrict_tables, Store.TableCustomer_tables, DB.Unscoped_tables]
  have key : ∀ (P : JoinRow → Bool) (u : Bool),
      (∀ r, P r = JoinRow.passes req corp r) →
      ({ tables := JoinRow.tables, rows := store.customerJoin.filter P, unscoped := u } :
        DB JoinRow) =
      { tables := JoinRow.tables, rows := store.customerJoin.filter (JoinRow.passes req corp),
        unscoped := u } := by
    intro P u hP
    have : P = JoinRow.passes req corp := funext hP
    rw [this]
  have hlen : ∀ l : List String, decide (l.length > 0) = !decide (l = []) := by
    intro l; cases l <;> simp
  have hch : (!decide (0 < req.ChannelType)) = decide (req.ChannelType ≤ 0) := by
    rw [Bool.eq_iff_iff]; simp
  by_cases h1 : req.OutFlowStatus = 1
  · rw [if_pos h1]
    simp only [where_j_churned, DB.restrict_tables, Store.TableCustomer_tables,
      DB.Unscoped_tables, DB.restrict_Unscoped, DB.restrict_restrict]
    simp only [DB.restrict, DB.Unscoped, Store.TableCustomer]
    have : decide (req.OutFlowStatus = 1) = true := by simp [h1]
    rw [this]
    apply key
    intro r
    simp [JoinRow.passes, h1, hlen, hch]
  · have : decide (req.OutFlowStatus = 1) = false := by simp [h1]
    rw [if_neg h1, this]
    by_cases h2 : req.OutFlowStatus = 2
    · rw [if_pos h2]
      simp only [where_j_active, DB.restrict_tables, Store.TableCustomer_tables,
        DB.restrict_restrict]
      simp only [DB.restrict, Store.TableCustomer]
      apply key
      intro r
      simp [JoinRow.passes, h2, hlen, hch]
    · rw [if_neg h2]
      simp only [DB.restrict_restrict]
      simp only [DB.restrict, Store.TableCustomer]
      apply key
      intro r
      simp [JoinRow.passes, h1, h2, hlen, hch]

theorem Query_idQuery_eq (store : Store) (req : QueryCustomerReq) (corp : String) :
    Customer.Query.idQuery store req corp = Customer.Query.db store req corp := rfl

theorem Query_count_eq (store : Store) (req : QueryCustomerReq) (corp : String) :
    Customer.Query.count store req corp =
      .ok (((store.joined req corp).map (·.customer.ID)).dedup.length : Int) := by
  unfold Customer.Query.count
  rw [Query_db_eq]
  have hres : resolveIn JoinRow.tables "customer.id" =
      some fun r => orNull (some r.customer) fun c => .str c.ID := rfl
  simp only [DB.Distinct, DB.Count]
  simp only [List.cons_ne_nil, if_false, if_true]
  rw [hres]
  simp only [orNull]
  have hmap : (store.customerJoin.filter (JoinRow.passes req corp)).map
      (fun r => Val.str r.customer.ID) = ((store.joined req corp).map (·.customer.ID)).map Val.str := by
    rw [List.map_map]; rfl
  have hinj : Function.Injective Val.str := fun a b h => by injection h
  have hfil : ∀ l : List String, (l.map Val.str).filter (fun x => decide (x ≠ Val.null)) =
      l.map Val.str := by
    intro l; rw [List.filter_eq_self]; intro a ha
    obtain ⟨s, _, rfl⟩ := List.mem_map.1 ha
    simp
  rw [hmap, hfil, List.dedup_map_of_injective hinj, List.length_map]

theorem compile_customer_in (ids : List String) :
    Cond.compile (resolveIn Customer.tables) (.inList "ext_id" (ids.map .str)) =
      .ok (fun c => some (decide (c.ExtID ∈ ids))) := by
  have : Cond.compile (resolveIn Customer.tables) (.inList "ext_id" (ids.map .str)) =
      .ok (fun c => if Val.str c.ExtID = .null then none
        else some (decide (Val.str c.ExtID ∈ ids.map Val.str))) := rfl
  rw [this]; simp

theorem where_customer_in (db : DB Customer) (h : db.tables = Customer.tables)
    (ids : List String) :
    db.Where (.inList "ext_id" (ids.map .str)) = db.restrict fun c => c.ExtID ∈ ids :=
  DB.Where_ok db _ _ _ h (compile_customer_in ids)

theorem preloadAll_eq (store : Store) :
    ∀ rows : List Customer,
      store.preloadAll [("Staffs", []), ("Staffs.CustomerStaffTags", [])] rows =
        .ok (rows.map store.withStaffs)
  | [] => rfl
  | c :: cs => by
    rw [Store.preloadAll, loadStaffs_all, preloadAll_eq store cs]
    rfl

theorem Pager.slice_map {α β : Type} (pager : Pager) (f : α → β) (l : List α) :
    pager.slice (l.map f) = (pager.slice l).map f := by
  unfold Pager.slice
  split <;> simp [List.map_drop, List.map_take]

/-- The page of distinct external IDs the ID statement of `Query` plucks. -/
theorem Query_pluck_eq (store : Store) (req : QueryCustomerReq) (corp : String)
    (pager : Pager) :
    (((((Customer.Query.idQuery store req corp).Distinct []).Select
        [.col "customer.ext_id" "ext_id"]).Offset pager.GetOffset).Limit pager.GetLimit).Pluck
        "customer.ext_id" =
      .ok (pager.slice ((store.joined req corp).map (·.customer.ExtID)).dedup) := by
  rw [Query_idQuery_eq, Query_db_eq]
  have hsel : evalSelects JoinRow.tables [.col "customer.ext_id" "ext_id"] =
      .ok fun r => [("ext_id", orNull (some r.customer) fun c => .str c.ExtID)] ++ [] := rfl
  simp only [DB.Distinct, DB.Select, DB.Offset, DB.Limit, DB.Pluck, DB.Scan, if_true,
    List.length_singleton]
  rw [hsel]
  simp only [orNull, List.append_nil, if_true]
  have hinj : Function.Injective (fun e : String => [("ext_id", Val.str e)]) := by
    intro a b h; simpa using h
  have hmap : (store.customerJoin.filter (JoinRow.passes req corp)).map
      (fun r => [("ext_id", Val.str r.customer.ExtID)]) =
      ((store.joined req corp).map (·.customer.ExtID)).map
        (fun e : String => [("ext_id", Val.str e)]) := by
    rw [List.map_map]; rfl
  rw [hmap, List.dedup_map_of_injective hinj]
  have hpage : ∀ l : List (List (String × Val)),
      DB.paginate
        ({ tables := JoinRow.tables, rows := store.customerJoin.filter (JoinRow.passes req corp),
           unscoped := decide (req.OutFlowStatus = 1), distinct := true,
           selects := [.col "customer.ext_id" "ext_id"], offset := pager.GetOffset.toNat,
           limit := if pager.GetLimit > 0 then some pager.GetLimit.toNat else none } : DB JoinRow) l =
      pager.slice l := fun l => rfl
  rw [hpage, Pager.slice_map, List.map_map]
  congr 1
  conv_rhs => rw [← List.map_id (pager.slice _)]
  apply List.map_congr_left
  intro e _
  simp [Val.text]

/-- The two-phase fetch of `Query`: the customers whose external ID is on the
page of distinct external IDs of the joined rows, relations loaded. -/
theorem Query_fetch_eq (store : Store) (req : QueryCustomerReq) (corp : String)
    (pager : Pager) :
    Customer.Query.fetch store req corp pager =
      .ok ((store.customer.filter fun c =>
        c.ExtID ∈ pager.slice ((store.joined req corp).map (·.customer.ExtID)).dedup).map
          store.withStaffs) := by
  unfold Customer.Query.fetch
  simp only [Query_pluck_eq]
  split
  · rw [where_customer_in _ (Store.Model_tables store)]
    simp only [Store.FindCustomers, DB.Preload, DB.Find, DB.paginate, DB.restrict, Store.Model,
      List.nil_append, List.cons_append, List.drop_zero]
    rw [preloadAll_eq]
  · rename_i h
    have : pager.slice ((store.joined req corp).map (·.customer.ExtID)).dedup = [] := by
      cases hl : pager.slice ((store.joined req corp).map (·.customer.ExtID)).dedup with
      | nil => rfl
      | cons a l => rw [hl] at h; simp at h
    rw [this]; simp

theorem compile_direct_corp (corp : String) :
    Cond.compile (resolveIn Customer.tables) (.eq "ext_corp_id" (.str corp)) =
      .ok (fun c => some (decide (c.ExtCorpID = corp))) := by
  have : Cond.compile (resolveIn Customer.tables) (.eq "ext_corp_id" (.str corp)) =
      .ok (fun c => if Val.str c.ExtCorpID = .null ∨ Val.str corp = .null then none
        else some (decide (Val.str c.ExtCorpID = .str corp))) := rfl
  rw [this]; simp

theorem compile_direct_name (pat : String) :
    Cond.compile (resolveIn Customer.tables) (.like "name" pat) =
      .ok (fun c => some (sqlLike c.Name pat)) := rfl

theorem compile_direct_gender (g : Int) :
    Cond.compile (resolveIn Customer.tables) (.eq "gender" (.int g)) =
      .ok (fun c => some (decide (c.Gender = g))) := by
  have : Cond.compile (resolveIn Customer.tables) (.eq "gender" (.int g)) =
      .ok (fun c => if Val.int c.Gender = .null ∨ Val.int g = .null then none
        else some (decide (Val.int c.Gender = .int g))) := rfl
  rw [this]; simp

theorem compile_direct_type (g : Int) :
    Cond.compile (resolveIn Customer.tables) (.eq "type" (.int g)) =
      .ok (fun c => some (decide (c.Typ = g))) := by
  have : Cond.compile (resolveIn Customer.tables) (.eq "type" (.int g)) =
      .ok (fun c => if Val.int c.Typ = .null ∨ Val.int g = .null then none
        else some (decide (Val.int c.Typ = .int g))) := rfl
  rw [this]; simp

theorem where_direct_corp (db : DB Customer) (h : db.tables = Customer.tables) (corp : String) :
    db.Where (.eq "ext_corp_id" (.str corp)) = db.restrict fun c => c.ExtCorpID = corp :=
  DB.Where_ok db _ _ _ h (compile_direct_corp corp)

theorem ite_direct_name (db : DB Customer) (h : db.tables = Customer.tables) (c : Prop)
    [Decidable c] (pat : String) :
    (if c then db.Where (.like "name" pat) else db) =
      db.restrict fun r => !decide c || sqlLike r.Name pat :=
  ite_Where db c _ _ (DB.Where_ok db _ _ _ h (compile_direct_name pat))

theorem ite_direct_gender (db : DB Customer) (h : db.tables = Customer.tables) (c : Prop)
    [Decidable c] (g : Int) :
    (if c then db.Where (.eq "gender" (.int g)) else db) =
      db.restrict fun r => !decide c || decide (r.Gender = g) :=
  ite_Where db c _ _ (DB.Where_ok db _ _ _ h (compile_direct_gender g))

theorem ite_direct_type (db : DB Customer) (h : db.tables = Customer.tables) (c : Prop)
    [Decidable c] (g : Int) :
    (if c then db.Where (.eq "type" (.int g)) else db) =
      db.restrict fun r => !decide c || decide (r.Typ = g) :=
  ite_Where db c _ _ (DB.Where_ok db _ _ _ h (compile_direct_type g))

/-- The fallback statement of `Query` holds the customers that pass the corp,
name, gender and type filters. -/
theorem Query_directDB_eq (store : Store) (req : QueryCustomerReq) (corp : String) :
    Customer.Query.directDB store req corp =
      { tables := Customer.tables
        rows := store.customer.filter (Customer.passesDirect req corp) } := by
  unfold Customer.Query.directDB
  simp only [where_direct_corp, ite_direct_name, ite_direct_gender, ite_direct_type,
    DB.restrict_tables, Store.Model_tables, DB.restrict_restrict]
  simp only [DB.restrict, Store.Model]
  have : (fun r : Customer => decide (r.ExtCorpID = corp) &&
      (!decide (req.Name ≠ "") || sqlLike r.Name (req.Name ++ "%")) &&
      (!decide (req.Gender ≠ 0) || decide (r.Gender = req.Gender)) &&
      (!decide (req.Typ ≠ 0) || decide (r.Typ = req.Typ))) = Customer.passesDirect req corp := by
    funext r; simp [Customer.passesDirect]
  rw [this]

/-- The method `Query` in closed form. -/
theorem Query_eq (dps : Int) (store : Store) (req : QueryCustomerReq) (corp : String)
    (pager : Pager) :
    Customer.Query dps store req corp pager =
      if ((store.joined req corp).map (·.customer.ID)).dedup.length = 0 then
        if (store.customer.filter (Customer.passesDirect req corp)).length > 0 then
          (((pager.SetDefault dps).slice
              (store.customer.filter (Customer.passesDirect req corp))).map store.withStaffs,
            ((store.customer.filter (Customer.passesDirect req corp)).length : Int), none)
        else
          ((store.customer.filter fun c => c.ExtID ∈ (pager.SetDefault dps).slice
              ((store.joined req corp).map (·.customer.ExtID)).dedup).map store.withStaffs,
            0, none)
      else
        ((store.customer.filter fun c => c.ExtID ∈ (pager.SetDefault dps).slice
            ((store.joined req corp).map (·.customer.ExtID)).dedup).map store.withStaffs,
          (((store.joined req corp).map (·.customer.ID)).dedup.length : Int), none) := by
  unfold Customer.Query
  simp only [Query_count_eq, Query_fetch_eq, Query_directDB_eq]
  by_cases h0 : ((store.joined req corp).map (·.customer.ID)).dedup.length = 0
  · simp only [h0, Nat.cast_zero, if_true, DB.Count]
    by_cases hd : (store.customer.filter (Customer.passesDirect req corp)).length > 0
    · have hd' : ((store.customer.filter (Customer.passesDirect req corp)).length : Int) > 0 := by
        exact_mod_cast hd
      simp only [hd, hd', if_true, Store.FindCustomers, DB.Preload, DB.Find, DB.Offset, DB.Limit,
        List.nil_append, List.cons_append]
      have hpage : ∀ l : List Customer,
          DB.paginate
            ({ tables := Customer.tables,
               rows := store.customer.filter (Customer.passesDirect req corp),
               offset := (pager.SetDefault dps).GetOffset.toNat,
               limit := if (pager.SetDefault dps).GetLimit > 0 then
                 some (pager.SetDefault dps).GetLimit.toNat else none,
               preloads := [("Staffs", []), ("Staffs.CustomerStaffTags", [])] } : DB Customer) l =
          (pager.SetDefault dps).slice l := fun l => rfl
      rw [hpage, preloadAll_eq]
    · have hd' : ¬ ((store.customer.filter (Customer.passesDirect req corp)).length : Int) > 0 := by
        intro h; exact hd (by exact_mod_cast h)
      simp only [hd, hd', if_false]
  · have h0' : ¬ (((store.joined req corp).map (·.customer.ID)).dedup.length : Int) = 0 := by
      intro h; exact h0 (by exact_mod_cast h)
    simp only [h0, h0', if_false]

/-! ## The claims on `Query` -/

theorem mem_leftJoin {α : Type} (l : List α) (o : Option α) :
    o ∈ leftJoin l ↔ (o = none ∧ l = []) ∨ ∃ a ∈ l, o = some a := by
  cases l with
  | nil => simp [leftJoin]
  | cons x xs =>
    simp only [leftJoin, List.mem_map]
    constructor
    · rintro ⟨a, ha, rfl⟩; exact Or.inr ⟨a, ha, rfl⟩
    · rintro (⟨_, h⟩ | ⟨a, ha, rfl⟩)
      · simp at h
      · exact ⟨a, ha, rfl⟩

theorem leftJoin_nonempty {α : Type} (l : List α) : ∃ o, o ∈ leftJoin l := by
  cases l with
  | nil => exact ⟨none, by simp [leftJoin]⟩
  | cons x xs => exact ⟨some x, by simp [leftJoin]⟩

theorem mem_customerJoin (store : Store) (r : JoinRow) :
    r ∈ store.customerJoin ↔
      r.customer ∈ store.customer ∧
      r.cs ∈ leftJoin (store.customer_staff.filter fun s => r.customer.ExtID = s.ExtCustomerID) ∧
      r.cst ∈ leftJoin (store.tagsOf r.cs) := by
  unfold Store.customerJoin
  simp only [List.mem_flatMap, List.mem_map]
  constructor
  · rintro ⟨c, hc, cs, hcs, cst, hcst, rfl⟩
    exact ⟨hc, hcs, hcst⟩
  · rintro ⟨hc, hcs, hcst⟩
    exact ⟨r.customer, hc, r.cs, hcs, r.cst, hcst, rfl⟩

/-- Every customer of the store has a joined row; a relation of the customer can
be chosen as its relation side. -/
theorem exists_joinRow (store : Store) (c : Customer) (hc : c ∈ store.customer) :
    (∃ r ∈ store.customerJoin, r.customer = c) ∧
    ∀ s ∈ store.customer_staff, c.ExtID = s.ExtCustomerID →
      ∃ r ∈ store.customerJoin, r.customer = c ∧ r.cs = some s := by
  constructor
  · obtain ⟨cs, hcs⟩ := leftJoin_nonempty
      (store.customer_staff.filter fun s => c.ExtID = s.ExtCustomerID)
    obtain ⟨cst, hcst⟩ := leftJoin_nonempty (store.tagsOf cs)
    exact ⟨⟨c, cs, cst⟩, (mem_customerJoin store _).2 ⟨hc, hcs, hcst⟩, rfl⟩
  · intro s hs he
    obtain ⟨cst, hcst⟩ := leftJoin_nonempty (store.tagsOf (some s))
    refine ⟨⟨c, some s, cst⟩, (mem_customerJoin store _).2 ⟨hc, ?_, hcst⟩, rfl, rfl⟩
    rw [mem_leftJoin]
    exact Or.inr ⟨s, by simp [hs, he], rfl⟩

/-- The relation side of a joined row is a relation of its customer. -/
theorem joinRow_cs (store : Store) (r : JoinRow) (hr : r ∈ store.customerJoin)
    (s : CustomerStaff) (hs : r.cs = some s) :
    s ∈ store.customer_staff ∧ r.customer.ExtID = s.ExtCustomerID := by
  have h := ((mem_customerJoin store r).1 hr).2.1
  rw [mem_leftJoin, hs] at h
  rcases h with ⟨h, _⟩ | ⟨a, ha, h⟩
  · simp at h
  · injection h with h; subst h
    simpa using ha

/-- Two lists with the same members have as many distinct members. -/
theorem dedup_length_eq_of_mem_iff {α : Type} [DecidableEq α] (l₁ l₂ : List α)
    (h : ∀ a, a ∈ l₁ ↔ a ∈ l₂) : l₁.dedup.length = l₂.dedup.length := by
  rw [← List.card_toFinset, ← List.card_toFinset]
  congr 1
  ext a; simp [h]

theorem passes_no_filter (req : QueryCustomerReq) (corp : String) (r : JoinRow)
    (h1 : req.Name = "") (h2 : req.Gender = 0) (h3 : req.Typ = 0) (h4 : req.ExtStaffIDs = [])
    (h5 : req.StartTime = "") (h6 : req.ExtTagIDs = []) (h7 : req.ChannelType = 0)
    (h8 : req.OutFlowStatus = 0) :
    JoinRow.passes req corp r =
      (decide (r.customer.ExtCorpID = corp) || r.cs.any fun s => s.ExtCorpID = corp) := by
  simp [JoinRow.passes, h1, h2, h3, h4, h5, h6, h7, h8]

/-- C4: for a request whose filter fields are all empty or zero, the total that
`Query` returns is the number of customers (distinct by primary key) whose own
corp ID is the given one or that have a linked staff relation with that corp ID;
the fallback does not change it. -/
theorem C4_Query_total_no_filter (dps : Int) (store : Store) (req : QueryCustomerReq)
    (corp : String) (pager : Pager) (hu : store.UniqueID)
    (h1 : req.Name = "") (h2 : req.Gender = 0) (h3 : req.Typ = 0) (h4 : req.ExtStaffIDs = [])
    (h5 : req.StartTime = "") (h6 : req.ExtTagIDs = []) (h7 : req.ChannelType = 0)
    (h8 : req.OutFlowStatus = 0) :
    (Customer.Query dps store req corp pager).2.1 =
      ((store.customer.filter fun c =>
        c.ExtCorpID = corp ∨
          ∃ s ∈ store.customer_staff, s.ExtCustomerID = c.ExtID ∧ s.ExtCorpID = corp).length :
        Int) ∧
    (Customer.Query dps store req corp pager).2.2 = none := by
  set Q : Customer → Bool := fun c => decide (c.ExtCorpID = corp ∨
    ∃ s ∈ store.customer_staff, s.ExtCustomerID = c.ExtID ∧ s.ExtCorpID = corp) with hQ
  have hnd : ((store.customer.filter Q).map (·.ID)).Nodup :=
    List.Nodup.sublist (List.Sublist.map _ (List.filter_sublist _)) hu
  have hmem : ∀ id, id ∈ (store.joined req corp).map (·.customer.ID) ↔
      id ∈ (store.customer.filter Q).map (·.ID) := by
    intro id
    simp only [List.mem_map, Store.joined, List.mem_filter,
      passes_no_filter req corp _ h1 h2 h3 h4 h5 h6 h7 h8, hQ, decide_eq_true_eq,
      Bool.or_eq_true]
    constructor
    · rintro ⟨r, ⟨hr, hp⟩, rfl⟩
      refine ⟨r.customer, ⟨((mem_customerJoin store r).1 hr).1, ?_⟩, rfl⟩
      rcases hp with hp | hp
      · exact Or.inl hp
      · cases hcs : r.cs with
        | none => rw [hcs] at hp; simp at hp
        | some s =>
          rw [hcs] at hp
          have := joinRow_cs store r hr s hcs
          exact Or.inr ⟨s, this.1, this.2.symm, by simpa using hp⟩
    · rintro ⟨c, ⟨hc, hq⟩, rfl⟩
      rcases hq with hq | ⟨s, hs, hse, hsc⟩
      · obtain ⟨r, hr, rfl⟩ := (exists_joinRow store c hc).1
        exact ⟨r, ⟨hr, Or.inl hq⟩, rfl⟩
      · obtain ⟨r, hr, rfl, hcs⟩ := (exists_joinRow store c hc).2 s hs hse.symm
        exact ⟨r, ⟨hr, Or.inr (by rw [hcs]; simpa using hsc)⟩, rfl⟩
  have hcount : ((store.joined req corp).map (·.customer.ID)).dedup.length =
      (store.customer.filter Q).length := by
    rw [dedup_length_eq_of_mem_iff _ _ hmem, List.Nodup.dedup hnd, List.length_map]
  have hdirect : ∀ c ∈ store.customer, Customer.passesDirect req corp c = true → Q c = true := by
    intro c _ hc
    simp only [Customer.passesDirect, h1, h2, h3, decide_True, Bool.true_or, Bool.and_true,
      decide_eq_true_eq] at hc
    simp [hQ, hc]
  rw [Query_eq]
  by_cases h0 : ((store.joined req corp).map (·.customer.ID)).dedup.length = 0
  · have hq0 : store.customer.filter Q = [] := by
      rw [hcount] at h0; exact List.length_eq_zero.1 h0
    have hd0 : store.customer.filter (Customer.passesDirect req corp) = [] := by
      rw [List.filter_eq_nil_iff]
      intro c hc hp
      have : c ∈ store.customer.filter Q := List.mem_filter.2 ⟨hc, hdirect c hc hp⟩
      rw [hq0] at this; simp at this
    rw [if_pos h0, hd0, hq0]
    exact ⟨rfl, rfl⟩
  · rw [if_neg h0]
    refine ⟨?_, rfl⟩
    show ((((store.joined req corp).map (·.customer.ID)).dedup.length : Nat) : Int) = _
    rw [hcount]

/-- C4 at the sample store: both customers belong to the corp `corp`. -/
theorem C4_Query_total_no_filter_witness :
    (Customer.Query 10 sampleStore {} "corp" {}).2.1 = 2 ∧
    (Customer.Query 10 sampleStore {} "corp" {}).2.2 = none :=
  C4_Query_total_no_filter 10 sampleStore {} "corp" {} (by decide) rfl rfl rfl rfl rfl rfl rfl rfl

theorem slice_nil {α : Type} (pager : Pager) : pager.slice ([] : List α) = [] := by
  unfold Pager.slice; split <;> simp

theorem mem_of_mem_slice {α : Type} (pager : Pager) (l : List α) (a : α)
    (h : a ∈ pager.slice l) : a ∈ l := by
  unfold Pager.slice at h
  split at h
  · exact List.mem_of_mem_drop h
  · exact List.mem_of_mem_drop (List.mem_of_mem_take h)

/-- When the joined count is zero no joined row passes the filters. -/
theorem joined_nil_of_count_zero (store : Store) (req : QueryCustomerReq) (corp : String)
    (h : Customer.Query.count store req corp = .ok 0) : store.joined req corp = [] := by
  rw [Query_count_eq] at h
  have h' : (((store.joined req corp).map (·.customer.ID)).dedup.length : Int) = 0 := by
    injection h
  have h2 : ((store.joined req corp).map (·.customer.ID)).dedup = [] :=
    List.length_eq_zero.1 (by exact_mod_cast h')
  have h3 : (store.joined req corp).map (·.customer.ID) = [] := by
    cases hl : (store.joined req corp).map (·.customer.ID) with
    | nil => rfl
    | cons a l =>
      have : a ∈ ((store.joined req corp).map (·.customer.ID)).dedup := by
        rw [List.mem_dedup, hl]; simp
      rw [h2] at this; simp at this
  exact List.map_eq_nil_iff.1 h3

/-- C6: when the distinct total of the joined statement is zero, `Query` returns
the page of the customers that pass the corp, name, gender and type filters
alone (relations loaded), with their number as total and no error; the joined
fetch is empty, so the result contains it. -/
theorem C6_Query_fallback (dps : Int) (store : Store) (req : QueryCustomerReq)
    (corp : String) (pager : Pager) (h : Customer.Query.count store req corp = .ok 0) :
    Customer.Query dps store req corp pager =
      (((pager.SetDefault dps).slice
          (store.customer.filter (Customer.passesDirect req corp))).map store.withStaffs,
        ((store.customer.filter (Customer.passesDirect req corp)).length : Int), none) ∧
    Customer.Query.fetch store req corp (pager.SetDefault dps) = .ok [] := by
  have hj := joined_nil_of_count_zero store req corp h
  constructor
  · rw [Query_eq, hj]
    simp only [List.map_nil, List.dedup_nil, List.length_nil, if_true, slice_nil,
      List.not_mem_nil, decide_False, List.filter_false]
    by_cases hd : (store.customer.filter (Customer.passesDirect req corp)).length > 0
    · rw [if_pos hd]
    · rw [if_neg hd]
      have : store.customer.filter (Customer.passesDirect req corp) = [] :=
        List.length_eq_zero.1 (by omega)
      rw [this, slice_nil]; rfl
  · rw [Query_fetch_eq, hj]
    simp [slice_nil]

/-- C6 at the sample store: no joined row has the gender `2` and a soft-deleted
relation, so the customer of gender `2` is read from the customer table. -/
theorem C6_Query_fallback_witness :
    Customer.Query 10 sampleStore { Gender := 2, OutFlowStatus := 1 } "corp" {} =
      (((({} : Pager).SetDefault 10).slice
          (sampleStore.customer.filter
            (Customer.passesDirect { Gender := 2, OutFlowStatus := 1 } "corp"))).map
          sampleStore.withStaffs,
        ((sampleStore.customer.filter
          (Customer.passesDirect { Gender := 2, OutFlowStatus := 1 } "corp")).length : Int),
        none) ∧
    Customer.Query.fetch sampleStore { Gender := 2, OutFlowStatus := 1 } "corp"
      (({} : Pager).SetDefault 10) = .ok [] :=
  C6_Query_fallback 10 sampleStore { Gender := 2, OutFlowStatus := 1 } "corp" {} rfl

theorem withStaffs_ExtID (store : Store) (c : Customer) : (store.withStaffs c).ExtID = c.ExtID :=
  rfl

/-- Without the fallback, a returned customer is the customer of a joined row
that passes the filters. -/
theorem Query_mem_joined (dps : Int) (store : Store) (req : QueryCustomerReq) (corp : String)
    (pager : Pager) (h : Customer.Query.count store req corp ≠ .ok 0) (c : Customer)
    (hc : c ∈ (Customer.Query dps store req corp pager).1) :
    ∃ r ∈ store.customerJoin, r.customer.ExtID = c.ExtID ∧ JoinRow.passes req corp r = true := by
  rw [Query_count_eq] at h
  have h0 : ¬ ((store.joined req corp).map (·.customer.ID)).dedup.length = 0 := by
    intro h0; apply h; rw [h0]; rfl
  rw [Query_eq, if_neg h0] at hc
  simp only [List.mem_map, List.mem_filter, decide_eq_true_eq] at hc
  obtain ⟨c0, ⟨_, hid⟩, rfl⟩ := hc
  have := mem_of_mem_slice _ _ _ hid
  rw [List.mem_dedup, List.mem_map] at this
  obtain ⟨r, hr, hre⟩ := this
  rw [Store.joined, List.mem_filter] at hr
  exact ⟨r, hr.1, by rw [withStaffs_ExtID, hre], hr.2⟩

/-- C5, amended: when the distinct total of the joined statement is not zero,
every customer `Query` returns is the customer of a joined row that passes the
filters of the request; under the churn filter "churned" this row carries a
soft-deleted staff relation of the customer, under "active" it carries a staff
relation of the customer that is not soft-deleted, or the customer has no staff
relation at all. -/
theorem C5_Query_churn_filter (dps : Int) (store : Store) (req : QueryCustomerReq)
    (corp : String) (pager : Pager) (h : Customer.Query.count store req corp ≠ .ok 0)
    (c : Customer) (hc : c ∈ (Customer.Query dps store req corp pager).1) :
    ∃ r ∈ store.customerJoin, r.customer.ExtID = c.ExtID ∧ JoinRow.passes req corp r = true ∧
      (req.OutFlowStatus = 1 →
        ∃ s ∈ store.customer_staff, r.cs = some s ∧ s.ExtCustomerID = c.ExtID ∧
          s.DeletedAt ≠ none) ∧
      (req.OutFlowStatus = 2 →
        (r.cs = none ∧ ∀ s ∈ store.customer_staff, s.ExtCustomerID ≠ c.ExtID) ∨
        ∃ s ∈ store.customer_staff, r.cs = some s ∧ s.ExtCustomerID = c.ExtID ∧
          s.DeletedAt = none) := by
  obtain ⟨r, hr, hre, hp⟩ := Query_mem_joined dps store req corp pager h c hc
  refine ⟨r, hr, hre, hp, ?_, ?_⟩
  · intro h1
    have hch : (r.cs.any fun s => s.DeletedAt.isSome) = true := by
      have := hp
      simp only [JoinRow.passes, h1, if_true, Bool.and_eq_true] at this
      exact this.2
    cases hcs : r.cs with
    | none => rw [hcs] at hch; simp at hch
    | some s =>
      rw [hcs] at hch
      have hs := joinRow_cs store r hr s hcs
      refine ⟨s, hs.1, rfl, by rw [← hs.2, hre], ?_⟩
      intro hd; simp [hd] at hch
  · intro h2
    have hch : (r.cs.all fun s => s.DeletedAt.isNone) = true := by
      have := hp
      have h21 : ¬ req.OutFlowStatus = 1 := by rw [h2]; decide
      simp only [JoinRow.passes, h21, h2, if_true, if_false, Bool.and_eq_true] at this
      exact this.2
    cases hcs : r.cs with
    | none =>
      left
      refine ⟨rfl, ?_⟩
      have hl := ((mem_customerJoin store r).1 hr).2.1
      rw [mem_leftJoin, hcs] at hl
      rcases hl with ⟨_, hnil⟩ | ⟨a, _, ha⟩
      · intro s hs he
        have : s ∈ store.customer_staff.filter fun s => r.customer.ExtID = s.ExtCustomerID :=
          List.mem_filter.2 ⟨hs, by simp [he, hre]⟩
        rw [hnil] at this; simp at this
      · simp at ha
    | some s =>
      right
      rw [hcs] at hch
      have hs := joinRow_cs store r hr s hcs
      refine ⟨s, hs.1, rfl, by rw [← hs.2, hre], ?_⟩
      cases hd : s.DeletedAt with
      | none => rfl
      | some t => simp [hd] at hch

/-- C5 fails as stated: with the filter "churned" and gender `2` no joined row
passes, the fallback returns customer `e2`, which has no soft-deleted relation;
with the filter "active" alone customer `e1` is returned although its relation
`11` is soft-deleted. -/
theorem C5_counterexample :
    (∃ c ∈ (Customer.Query 10 sampleStore { Gender := 2, OutFlowStatus := 1 } "corp" {}).1,
      ∀ s ∈ sampleStore.customer_staff, s.ExtCustomerID = c.ExtID → s.DeletedAt = none) ∧
    (∃ c ∈ (Customer.Query 10 sampleStore { OutFlowStatus := 2 } "corp" {}).1,
      ∃ s ∈ sampleStore.customer_staff, s.ExtCustomerID = c.ExtID ∧ s.DeletedAt ≠ none) := by
  decide

/-- The pages of size `s` number `0, ..., n - 1` of a list are its first `n * s`
elements. -/
theorem flatMap_range_pages {α : Type} (l : List α) (s : Nat) :
    ∀ n : Nat, ((List.range n).flatMap fun k => (l.drop (k * s)).take s) = l.take (n * s)
  | 0 => by simp
  | n + 1 => by
    rw [List.range_succ, List.flatMap_append, flatMap_range_pages l s n, Nat.succ_mul,
      List.take_add]
    simp

/-- The page number `k + 1` of a pager with the effective page size `e`. -/
theorem slice_page {α : Type} (dps size : Int) (k : Nat) (l : List α)
    (hs : 0 < (Pager.SetDefault dps { Page := 1, PageSize := size }).PageSize) :
    (Pager.SetDefault dps { Page := k + 1, PageSize := size }).slice l =
      (l.drop (k * (Pager.SetDefault dps { Page := 1, PageSize := size }).PageSize.toNat)).take
        (Pager.SetDefault dps { Page := 1, PageSize := size }).PageSize.toNat := by
  have hk : ¬ ((k : Int) + 1 ≤ 0) := by omega
  simp only [Pager.SetDefault, hk, if_false] at hs ⊢
  set e : Int := if size ≤ 0 then dps else size with he
  unfold Pager.slice
  simp only [Pager.GetLimit, Pager.GetOffset, hs, if_true]
  congr 2
  have : ((k : Int) + 1 - 1) * e = ((k * e.toNat : Nat) : Int) := by
    rw [Nat.cast_mul, Int.toNat_of_nonneg (le_of_lt hs)]; ring
  rw [this, Int.toNat_natCast]

/-- The members of a duplicate-free list of keys, picked from a list whose keys
are distinct and include them, carry these keys up to order. -/
theorem filter_keys_perm {α β : Type} [DecidableEq β] (f : α → β) (l : List α) (keys : List β)
    (hl : (l.map f).Nodup) (hk : keys.Nodup) (hsub : ∀ b ∈ keys, b ∈ l.map f) :
    ((l.filter fun a => decide (f a ∈ keys)).map f).Perm keys := by
  rw [List.perm_ext_iff_of_nodup
    (List.Nodup.sublist (List.Sublist.map _ (List.filter_sublist _)) hl) hk]
  intro b
  simp only [List.mem_map, List.mem_filter, decide_eq_true_eq]
  constructor
  · rintro ⟨a, ⟨_, ha⟩, rfl⟩; exact ha
  · intro hb
    obtain ⟨a, ha, rfl⟩ := List.mem_map.1 (hsub b hb)
    exact ⟨a, ⟨ha, hb⟩, rfl⟩

/-- With unique primary keys and unique external IDs, the joined rows show as
many distinct primary keys as distinct external IDs. -/
theorem joined_ids_length (store : Store) (req : QueryCustomerReq) (corp : String)
    (hu : store.UniqueID) (hx : store.UniqueExtID) :
    ((store.joined req corp).map (·.customer.ID)).dedup.length =
      ((store.joined req corp).map (·.customer.ExtID)).dedup.length := by
  have hmem : ∀ c ∈ ((store.joined req corp).map (·.customer)).toFinset, c ∈ store.customer := by
    intro c hc
    rw [List.mem_toFinset, List.mem_map] at hc
    obtain ⟨r, hr, rfl⟩ := hc
    rw [Store.joined, List.mem_filter] at hr
    exact ((mem_customerJoin store r).1 hr.1).1
  have h1 : (store.joined req corp).map (·.customer.ID) =
      ((store.joined req corp).map (·.customer)).map (·.ID) := by rw [List.map_map]; rfl
  have h2 : (store.joined req corp).map (·.customer.ExtID) =
      ((store.joined req corp).map (·.customer)).map (·.ExtID) := by rw [List.map_map]; rfl
  have himg : ∀ (f : Customer → String) (l : List Customer),
      (l.map f).toFinset = l.toFinset.image f := by
    intro f l; ext a; simp
  rw [← List.card_toFinset, ← List.card_toFinset, h1, h2, himg, himg,
    Finset.card_image_of_injOn, Finset.card_image_of_injOn]
  · intro a ha b hb hab
    exact List.inj_on_of_nodup_map hx (hmem a ha) (hmem b hb) hab
  · intro a ha b hb hab
    exact List.inj_on_of_nodup_map hu (hmem a ha) (hmem b hb) hab

/-- Pages whose keys are, up to order, the successive slices of a duplicate-free
key list `K`: the first `n` pages carry exactly the keys `K` once `n` pages
cover `K`, and no later page adds a customer. -/
theorem pages_of_keys (X : Nat → List Customer) (K : List String) (e n : Nat)
    (hX : ∀ k, ((X k).map (·.ExtID)).Perm ((K.drop (k * e)).take e))
    (hn : K.length ≤ n * e) :
    (((List.range n).flatMap X).map (·.ExtID)).Perm K ∧
    ∀ k, ∀ c ∈ X k, c ∈ (List.range n).flatMap X := by
  constructor
  · rw [List.map_flatMap]
    have h1 : ((List.range n).flatMap fun k => (X k).map (·.ExtID)).Perm
        ((List.range n).flatMap fun k => (K.drop (k * e)).take e) :=
      List.Perm.flatMap_left _ fun k _ => hX k
    rw [flatMap_range_pages, List.take_of_length_le hn] at h1
    exact h1
  · intro k c hc
    by_cases hk : k < n
    · exact List.mem_flatMap.2 ⟨k, List.mem_range.2 hk, hc⟩
    · have hle : K.length ≤ k * e :=
        le_trans hn (Nat.mul_le_mul_right e (Nat.le_of_not_lt hk))
      have h0 := hX k
      rw [List.drop_of_length_le hle, List.take_nil] at h0
      have : X k = [] := List.map_eq_nil_iff.1 h0.eq_nil
      rw [this] at hc; simp at hc

theorem withStaffs_map_ExtID (store : Store) (l : List Customer) :
    (l.map store.withStaffs).map (·.ExtID) = l.map (·.ExtID) := by
  rw [List.map_map]; rfl

/-- C3: for a store with unique primary keys and unique external IDs and a
positive effective page size, every page of `Query` reports the same total
without error, and the pages `1, ..., n`, once `n` pages cover the total, hold
exactly `total` customers, no customer twice, the customer of every joined row
that passes the filters among them, and every customer of any page. -/
theorem C3_Query_pagination (dps : Int) (store : Store) (req : QueryCustomerReq)
    (corp : String) (size : Int) (n : Nat) (hu : store.UniqueID) (hx : store.UniqueExtID)
    (hs : 0 < (Pager.SetDefault dps { Page := 1, PageSize := size }).PageSize)
    (hn : (Customer.Query dps store req corp { Page := 1, PageSize := size }).2.1 ≤
      n * (Pager.SetDefault dps { Page := 1, PageSize := size }).PageSize) :
    (∀ k : Nat, (Customer.Query dps store req corp { Page := k + 1, PageSize := size }).2 =
      ((Customer.Query dps store req corp { Page := 1, PageSize := size }).2.1, none)) ∧
    ((Customer.Query.pages dps store req corp size n).length : Int) =
      (Customer.Query dps store req corp { Page := 1, PageSize := size }).2.1 ∧
    ((Customer.Query.pages dps store req corp size n).map (·.ExtID)).Nodup ∧
    (∀ r ∈ store.customerJoin, JoinRow.passes req corp r = true →
      r.customer.ExtID ∈ (Customer.Query.pages dps store req corp size n).map (·.ExtID)) ∧
    (∀ k : Nat, ∀ c ∈ (Customer.Query dps store req corp { Page := k + 1, PageSize := size }).1,
      c ∈ Customer.Query.pages dps store req corp size n) := by
  set e : Nat := (Pager.SetDefault dps { Page := 1, PageSize := size }).PageSize.toNat with he
  have hcast : (Pager.SetDefault dps { Page := 1, PageSize := size }).PageSize = (e : Int) := by
    rw [he, Int.toNat_of_nonneg (le_of_lt hs)]
  have h1 : (Customer.Query dps store req corp { Page := 1, PageSize := size }) =
      (Customer.Query dps store req corp { Page := ((0 : Nat) : Int) + 1, PageSize := size }) := by
    simp
  rw [h1] at hn ⊢
  rw [hcast] at hn
  -- the key list behind the pages, in each of the three cases of the closed form
  obtain ⟨K, T, hKnd, hT, hres, hjoin⟩ : ∃ (K : List String) (T : Nat), K.Nodup ∧ T = K.length ∧
      (∀ k : Nat, ∃ X, Customer.Query dps store req corp { Page := k + 1, PageSize := size } =
        (X, (T : Int), none) ∧ (X.map (·.ExtID)).Perm ((K.drop (k * e)).take e)) ∧
      (∀ r ∈ store.joined req corp, r.customer.ExtID ∈ K) := by
    by_cases h0 : ((store.joined req corp).map (·.customer.ID)).dedup.length = 0
    · have hj : store.joined req corp = [] := by
        apply joined_nil_of_count_zero; rw [Query_count_eq, h0]; rfl
      by_cases hd : (store.customer.filter (Customer.passesDirect req corp)).length > 0
      · refine ⟨(store.customer.filter (Customer.passesDirect req corp)).map (·.ExtID), _,
          List.Nodup.sublist
            (List.Sublist.map (fun c : Customer => c.ExtID) (List.filter_sublist _))
            (show (store.customer.map (·.ExtID)).Nodup from hx),
          (List.length_map _ _).symm, ?_, by rw [hj]; simp⟩
        intro k
        refine ⟨_, by rw [Query_eq, if_pos h0, if_pos hd], ?_⟩
        rw [withStaffs_map_ExtID, slice_page dps size k _ hs, List.map_take, List.map_drop]
      · refine ⟨[], 0, List.nodup_nil, rfl, ?_, by rw [hj]; simp⟩
        intro k
        refine ⟨_, by rw [Query_eq, if_pos h0, if_neg hd]; rfl, ?_⟩
        rw [hj]; simp [slice_nil]
    · refine ⟨((store.joined req corp).map (·.customer.ExtID)).dedup, _, List.nodup_dedup _,
        joined_ids_length store req corp hu hx, ?_, ?_⟩
      · intro k
        refine ⟨_, by rw [Query_eq, if_neg h0], ?_⟩
        rw [withStaffs_map_ExtID, slice_page dps size k _ hs]
        refine filter_keys_perm (fun c : Customer => c.ExtID) store.customer _
          (show (store.customer.map (·.ExtID)).Nodup from hx) ?_ ?_
        · exact List.Nodup.sublist
            ((List.take_sublist _ _).trans (List.drop_sublist _ _)) (List.nodup_dedup _)
        · intro b hb
          have hb' := List.mem_of_mem_drop (List.mem_of_mem_take hb)
          rw [List.mem_dedup, List.mem_map] at hb'
          obtain ⟨r, hr, rfl⟩ := hb'
          rw [Store.joined, List.mem_filter] at hr
          exact List.mem_map_of_mem _ ((mem_customerJoin store r).1 hr.1).1
      · intro r hr
        rw [List.mem_dedup]; exact List.mem_map_of_mem _ hr
  choose X hX hXperm using hres
  have hTotal : (Customer.Query dps store req corp
      { Page := ((0 : Nat) : Int) + 1, PageSize := size }).2.1 = (T : Int) := by rw [hX 0]
  rw [hTotal] at hn ⊢
  have hn' : K.length ≤ n * e := by rw [← hT]; exact_mod_cast hn
  have hpages : Customer.Query.pages dps store req corp size n = (List.range n).flatMap X := by
    unfold Customer.Query.pages
    congr 1; funext k; rw [hX k]
  obtain ⟨hperm, hall⟩ := pages_of_keys X K e n hXperm hn'
  rw [hpages]
  refine ⟨fun k => by rw [hX k], ?_, hperm.nodup_iff.2 hKnd, ?_, ?_⟩
  · have := hperm.length_eq
    rw [List.length_map] at this
    rw [this, hT]
  · intro r hr hp
    exact hperm.mem_iff.2 (hjoin r (List.mem_filter.2 ⟨hr, hp⟩))
  · intro k c hc
    rw [hX k] at hc
    exact hall k c hc

/-- C3 at the sample store, page size `1`, two pages. -/
theorem C3_Query_pagination_witness :
    ((Customer.Query.pages 10 sampleStore {} "corp" 1 2).length : Int) =
      (Customer.Query 10 sampleStore {} "corp" { Page := 1, PageSize := 1 }).2.1 ∧
    ((Customer.Query.pages 10 sampleStore {} "corp" 1 2).map (·.ExtID)).Nodup :=
  ⟨(C3_Query_pagination 10 sampleStore {} "corp" 1 2 (by decide) (by decide) (by decide)
      (by decide)).2.1,
   (C3_Query_pagination 10 sampleStore {} "corp" 1 2 (by decide) (by decide) (by decide)
      (by decide)).2.2.1⟩

/-- C5, amended, at the sample store under the filter "churned": the returned
customer `e1` has the soft-deleted relation `11`. -/
theorem C5_Query_churn_filter_witness :
    ∃ r ∈ sampleStore.customerJoin, r.customer.ExtID = "e1" ∧
      JoinRow.passes { OutFlowStatus := 1 } "corp" r = true ∧
      (({ OutFlowStatus := 1 } : QueryCustomerReq).OutFlowStatus = 1 →
        ∃ s ∈ sampleStore.customer_staff, r.cs = some s ∧ s.ExtCustomerID = "e1" ∧
          s.DeletedAt ≠ none) ∧
      (({ OutFlowStatus := 1 } : QueryCustomerReq).OutFlowStatus = 2 →
        (r.cs = none ∧ ∀ s ∈ sampleStore.customer_staff, s.ExtCustomerID ≠ "e1") ∨
        ∃ s ∈ sampleStore.customer_staff, r.cs = some s ∧ s.ExtCustomerID = "e1" ∧
          s.DeletedAt = none) :=
  C5_Query_churn_filter 10 sampleStore { OutFlowStatus := 1 } "corp" {}
    (by
      have h : Customer.Query.count sampleStore { OutFlowStatus := 1 } "corp" = .ok 1 := rfl
      rw [h]; intro h'; exact absurd (Except.ok.inj h') (by decide))
    (sampleStore.withStaffs
      { ID := "1", ExtCorpID := "corp", ExtID := "e1", Name := "Ann", Gender := 1 })
    (by decide)

/-! ## The method `QueryExport` -/

theorem DB.Where_error {ρ : Type} (db : DB ρ) (T : List (TableRef ρ)) (cond : Cond)
    (e : DBError) (hT : db.tables = T) (h : cond.compile (resolveIn T) = .error e) :
    db.Where cond = { db with Error := db.Error <|> some e } := by
  unfold DB.Where; rw [hT, h]

theorem Count_of_Error {ρ : Type} (db : DB ρ) (e : DBError) (h : db.Error = some e) :
    db.Count = .error e := by
  unfold DB.Count; rw [h]

/-- A `WHERE` fragment can only fail on a reference it cannot resolve. -/
theorem compile_error_unknown {ρ : Type} (resolve : String → Option (ρ → Val)) :
    ∀ (cond : Cond) (e : DBError), cond.compile resolve = .error e → ∃ ref, e = .unknownColumn ref
  | .like col _, e, h => by
    unfold Cond.compile at h; split at h
    · injection h with h; exact ⟨col, h.symm⟩
    · cases h
  | .eq col _, e, h => by
    unfold Cond.compile at h; split at h
    · injection h with h; exact ⟨col, h.symm⟩
    · cases h
  | .inList col _, e, h => by
    unfold Cond.compile at h; split at h
    · injection h with h; exact ⟨col, h.symm⟩
    · cases h
  | .between col _ _, e, h => by
    unfold Cond.compile at h; split at h
    · injection h with h; exact ⟨col, h.symm⟩
    · cases h
  | .isNull col, e, h => by
    unfold Cond.compile at h; split at h
    · injection h with h; exact ⟨col, h.symm⟩
    · cases h
  | .isNotNull col, e, h => by
    unfold Cond.compile at h; split at h
    · injection h with h; exact ⟨col, h.symm⟩
    · cases h
  | .and a b, e, h => by
    unfold Cond.compile at h; split at h
    · cases h
    · injection h with h; subst h
      exact compile_error_unknown resolve a _ (by assumption)
    · injection h with h; subst h
      exact compile_error_unknown resolve b _ (by assumption)
  | .or a b, e, h => by
    unfold Cond.compile at h; split at h
    · cases h
    · injection h with h; subst h
      exact compile_error_unknown resolve a _ (by assumption)
    · injection h with h; subst h
      exact compile_error_unknown resolve b _ (by assumption)

theorem ExportInv_Where (db : DB StaffJoinRow) (cond : Cond) (h : ExportInv db) :
    ExportInv (db.Where cond) := by
  obtain ⟨h1, h2, h3⟩ := h
  unfold DB.Where
  cases hc : cond.compile (resolveIn db.tables) with
  | ok p => exact ⟨h1, h2, h3⟩
  | error e =>
    refine ⟨h1, h2, Or.inr ?_⟩
    rcases h3 with h3 | ⟨ref, h3⟩
    · obtain ⟨ref, rfl⟩ := compile_error_unknown _ _ _ hc
      exact ⟨ref, by simp [h3]⟩
    · exact ⟨ref, by simp [h3]⟩

theorem ExportInv_ite (db : DB StaffJoinRow) (c : Prop) [Decidable c] (cond : Cond)
    (h : ExportInv db) : ExportInv (if c then db.Where cond else db) := by
  split
  · exact ExportInv_Where db cond h
  · exact h

theorem QueryExport_db_inv (store : Store) (req : QueryCustomerReq) :
    ExportInv (Customer.QueryExport.db store req) := by
  unfold Customer.QueryExport.db
  exact ExportInv_ite _ _ _ (ExportInv_ite _ _ _ (ExportInv_ite _ _ _ (ExportInv_ite _ _ _
    ⟨rfl, rfl, Or.inl rfl⟩)))

/-- C9, the defect of `QueryExport`: for every store, request and pager it ends
in an unresolved-reference error (its filters name `customer` and `cs`, which
its `FROM` clause does not define, and its fetch selects `customer.*`), and its
statement does not read the date range, the tag IDs or the channel of the
request. -/
theorem C9_QueryExport_defect (store : Store) (req : QueryCustomerReq) (corp : String)
    (pager : Pager) :
    (∃ ref, Customer.QueryExport store req corp pager = ([], 0, some (.unknownColumn ref))) ∧
    Customer.QueryExport.db store req =
      Customer.QueryExport.db store
        { req with StartTime := "", EndTime := "", ExtTagIDs := [], ChannelType := 0 } := by
  refine ⟨?_, rfl⟩
  obtain ⟨h1, h2, h3⟩ := QueryExport_db_inv store req
  unfold Customer.QueryExport
  generalize Customer.QueryExport.db store req = db at h1 h2 h3
  rcases h3 with h3 | ⟨ref, h3⟩
  · have hcount : db.Count = .ok db.rows.length := by
      unfold DB.Count; rw [h3, h2]
    have hsel : evalSelects StaffJoinRow.tables [.star "customer"] =
        .error (.unknownColumn "customer.*") := rfl
    refine ⟨"customer.*", ?_⟩
    simp only [hcount]
    have hfind : ∀ d : DB StaffJoinRow, d.tables = StaffJoinRow.tables → d.Error = none →
        store.FindExport ((d.Preload "Staffs" []).Select [.star "customer"]) =
          .error (.unknownColumn "customer.*") := by
      intro d hd he
      simp only [Store.FindExport, DB.Scan, DB.Select, DB.Preload, he, hd, hsel]
    have hpaged : ∀ (c : Prop) [Decidable c] (o l : Int),
        (if c then (db.Offset o).Limit l else db).tables = StaffJoinRow.tables ∧
        (if c then (db.Offset o).Limit l else db).Error = none := by
      intro c _ o l
      split
      · exact ⟨h1, h3⟩
      · exact ⟨h1, h3⟩
    rw [hfind _ (hpaged _ _ _).1 (hpaged _ _ _).2]
  · exact ⟨ref, by simp only [Count_of_Error db _ h3]⟩

/-! ## The statement of `ExportQuery`, and the name filter as a prefix match -/

@[simp] theorem Store.TableCustomerExport_tables (store : Store) :
    store.TableCustomerExport.tables = ExportJoinRow.tables := rfl

theorem where_x_corp (db : DB ExportJoinRow) (h : db.tables = ExportJoinRow.tables)
    (corp : String) :
    db.Where (.eq "cs.ext_corp_id" (.str corp)) =
      db.restrict fun r => r.cs.any fun s => s.ExtCorpID = corp := by
  refine DB.Where_ok3 db _ _ (fun r =>
    if orNull r.cs (fun s => .str s.ExtCorpID) = .null ∨ Val.str corp = .null then none
      else some (decide (orNull r.cs (fun s => .str s.ExtCorpID) = .str corp))) _ h rfl ?_
  rintro ⟨c, cs, cst, s, ci⟩
  cases cs <;> simp [orNull]

theorem ite_x_name (db : DB ExportJoinRow) (h : db.tables = ExportJoinRow.tables) (c : Prop)
    [Decidable c] (pat : String) :
    (if c then db.Where (.like "customer.name" pat) else db) =
      db.restrict fun r => !decide c || sqlLike r.customer.Name pat :=
  ite_Where db c _ _ (DB.Where_ok3 db _ _ (fun r => some (sqlLike r.customer.Name pat)) _ h rfl
    (by intro r; simp))

theorem ite_x_gender (db : DB ExportJoinRow) (h : db.tables = ExportJoinRow.tables) (c : Prop)
    [Decidable c] (g : Int) :
    (if c then db.Where (.eq "customer.gender" (.int g)) else db) =
      db.restrict fun r => !decide c || decide (r.customer.Gender = g) :=
  ite_Where db c _ _ (DB.Where_ok3 db _ _ (fun r =>
    if Val.int r.customer.Gender = .null ∨ Val.int g = .null then none
      else some (decide (Val.int r.customer.Gender = .int g))) _ h rfl (by intro r; simp))

theorem ite_x_type (db : DB ExportJoinRow) (h : db.tables = ExportJoinRow.tables) (c : Prop)
    [Decidable c] (g : Int) :
    (if c then db.Where (.eq "customer.type" (.int g)) else db) =
      db.restrict fun r => !decide c || decide (r.customer.Typ = g) :=
  ite_Where db c _ _ (DB.Where_ok3 db _ _ (fun r =>
    if Val.int r.customer.Typ = .null ∨ Val.int g = .null then none
      else some (decide (Val.int r.customer.Typ = .int g))) _ h rfl (by intro r; simp))

theorem ite_x_staff (db : DB ExportJoinRow) (h : db.tables = ExportJoinRow.tables) (c : Prop)
    [Decidable c] (ids : List String) :
    (if c then db.Where (.inList "cs.ext_staff_id" (ids.map .str)) else db) =
      db.restrict fun r => !decide c || r.cs.any fun s => s.ExtStaffID ∈ ids :=
  ite_Where db c _ _ (DB.Where_ok3 db _ _ (fun r =>
    if orNull r.cs (fun s => .str s.ExtStaffID) = .null then none
      else some (decide (orNull r.cs (fun s => .str s.ExtStaffID) ∈ ids.map Val.str))) _ h rfl
    (by rintro ⟨c, cs, cst, s, ci⟩; cases cs <;> simp [orNull]))

theorem ite_x_time (db : DB ExportJoinRow) (h : db.tables = ExportJoinRow.tables) (c : Prop)
    [Decidable c] (lo hi : String) :
    (if c then db.Where (.between "createtime" (.str lo) (.str hi)) else db) =
      db.restrict fun r => !decide c || r.cs.any fun s =>
        leChars lo.data s.Createtime.data && leChars s.Createtime.data hi.data :=
  ite_Where db c _ _ (DB.Where_ok3 db _ _ (fun r =>
    and3 (Val.le (.str lo) (orNull r.cs (fun s => .str s.Createtime)))
      (Val.le (orNull r.cs (fun s => .str s.Createtime)) (.str hi))) _ h rfl
    (by
      rintro ⟨c, cs, cst, s, ci⟩
      cases cs with
      | none => simp [orNull, Val.le, and3]
      | some s =>
        cases h1 : leChars lo.data s.Createtime.data <;>
          cases h2 : leChars s.Createtime.data hi.data <;> simp [orNull, Val.le, and3, h1, h2]))

theorem ite_x_tag (db : DB ExportJoinRow) (h : db.tables = ExportJoinRow.tables) (c : Prop)
    [Decidable c] (ids : List String) :
    (if c then db.Where (.inList "cst.ext_tag_id" (ids.map .str)) else db) =
      db.restrict fun r => !decide c || r.cst.any fun t => t.ExtTagID ∈ ids :=
  ite_Where db c _ _ (DB.Where_ok3 db _ _ (fun r =>
    if orNull r.cst (fun t => .str t.ExtTagID) = .null then none
      else some (decide (orNull r.cst (fun t => .str t.ExtTagID) ∈ ids.map Val.str))) _ h rfl
    (by rintro ⟨c, cs, cst, s, ci⟩; cases cst <;> simp [orNull]))

theorem ite_x_channel (db : DB ExportJoinRow) (h : db.tables = ExportJoinRow.tables) (c : Prop)
    [Decidable c] (w : Int) :
    (if c then db.Where (.eq "cs.add_way" (.int w)) else db) =
      db.restrict fun r => !decide c || r.cs.any fun s => s.AddWay = w :=
  ite_Where db c _ _ (DB.Where_ok3 db _ _ (fun r =>
    if orNull r.cs (fun s => .int s.AddWay) = .null ∨ Val.int w = .null then none
      else some (decide (orNull r.cs (fun s => .int s.AddWay) = .int w))) _ h rfl
    (by rintro ⟨c, cs, cst, s, ci⟩; cases cs <;> simp [orNull]))

/-- The statement of `ExportQuery` holds the rows of its `FROM` clause that pass
each filter the request sets: name, gender, type, staff IDs, date range, tag
IDs and channel, next to the corp of the relation. -/
theorem ExportQuery_db_eq (store : Store) (req : QueryCustomerReq) (corp : String) :
    Customer.ExportQuery.db store req corp =
      { tables := ExportJoinRow.tables
        rows := store.exportJoin.filter (ExportJoinRow.passes req corp) } := by
  unfold Customer.ExportQuery.db
  simp only [where_x_corp, ite_x_name, ite_x_gender, ite_x_type, ite_x_staff, ite_x_time,
    ite_x_tag, ite_x_channel, DB.restrict_tables, Store.TableCustomerExport_tables,
    DB.restrict_restrict]
  simp only [DB.restrict, Store.TableCustomerExport]
  have hlen : ∀ l : List String, decide (l.length > 0) = !decide (l = []) := by
    intro l; cases l <;> simp
  have hch : (!decide (0 < req.ChannelType)) = decide (req.ChannelType ≤ 0) := by
    rw [Bool.eq_iff_iff]; simp
  congr 1
  apply List.filter_congr
  intro r _
  simp [ExportJoinRow.passes, hlen, hch]

theorem likeFrom_nil (s : List Char) : likeFrom false [] s = s.isEmpty := by
  rw [likeFrom]; simp

theorem likeFrom_plain (c : Char) (ps s : List Char)
    (h1 : c ≠ '%') (h2 : c ≠ '_') (h3 : c ≠ '\\') :
    likeFrom false (c :: ps) s = literal c (likeFrom false ps) s := by
  rw [likeFrom]; simp [h1, h2, h3]

theorem likeFrom_percent (ps s : List Char) :
    likeFrom false ('%' :: ps) s = anySuffix (likeFrom false ps) s := by
  rw [likeFrom]; simp

/-- A pattern without `%`, `_` and backslash, followed by `%`, matches exactly
the texts it is a prefix of. -/
theorem likeFrom_prefix :
    ∀ (p s : List Char), (∀ c ∈ p, c ≠ '%' ∧ c ≠ '_' ∧ c ≠ '\\') →
      likeFrom false (p ++ ['%']) s = p.isPrefixOf s
  | [], s, _ => by
    have h : ∀ s : List Char, anySuffix (likeFrom false []) s = true := by
      intro s
      induction s with
      | nil => simp [anySuffix, likeFrom_nil]
      | cons c s ih => simp [anySuffix, ih]
    simp [likeFrom_percent, h]
  | c :: p, [], h => by
    have hc := h c (List.mem_cons_self _ _)
    rw [List.cons_append, likeFrom_plain _ _ _ hc.1 hc.2.1 hc.2.2]
    simp [literal]
  | c :: p, x :: s, h => by
    have hc := h c (List.mem_cons_self _ _)
    have ih := likeFrom_prefix p s fun d hd => h d (List.mem_cons_of_mem _ hd)
    rw [List.cons_append, likeFrom_plain _ _ _ hc.1 hc.2.1 hc.2.2]
    simp only [literal, ih, List.isPrefixOf]
    by_cases hx : x = c
    · simp [hx]
    · have : ¬ c = x := fun h => hx h.symm
      simp [hx, this]

/-- The name filter `name like ?` with the argument `Name + "%"` is the prefix
match on names whenever the requested name has no pattern character. -/
theorem sqlLike_prefix (name req : String)
    (h : ∀ c ∈ req.data, c ≠ '%' ∧ c ≠ '_' ∧ c ≠ '\\') :
    sqlLike name (req ++ "%") = req.data.isPrefixOf name.data := by
  unfold sqlLike
  have : (req ++ "%").data = req.data ++ ['%'] := rfl
  rw [this, likeFrom_prefix _ _ h]

end Models
